import Mathlib

/-!
Verification of the Clarification & Step-Execution Coordination Engine of the
AutoChain B2B Supply-Chain Copilot (clarification_handler.py,
websocket_tool_wrapper.py, processing_orchestrator.py, websocket_manager.py).

The Python code is shallowly embedded: every dictionary becomes an association
list over `String` keys (Python dicts are insertion ordered; updating an
existing key keeps its position, deleting removes it), every set of strings
becomes a duplicate-free list, `datetime.now()` becomes a logical clock that
the state carries and bumps on each record, and every `async` method becomes a
pure state-transforming function that also returns the list of messages it
sent over the websocket.  Methods that contain a call which can raise
(`future.set_result` / `future.set_exception` raise `InvalidStateError` on an
already-resolved future) return `Except String _`; methods that cannot raise
return plain pairs.  All definitions are translated from the source files,
function by function; deviations forced by the embedding are noted next to
the definition they concern.
-/

/-- Association-list lookup over string keys; embeds Python `dict[k]` /
`dict.get(k)`.  First binding wins, matching Python dicts when keys are
unique (dict keys always are). -/
def alook {β : Type} (l : List (String × β)) (k : String) : Option β :=
  match l with
  | [] => none
  | (k', v) :: t => if k' = k then some v else alook t k

/-- Association-list update; embeds Python `dict[k] = v`: replaces the
binding in place when the key is present, appends a new binding otherwise
(Python dicts append new keys at the end). -/
def aset {β : Type} (l : List (String × β)) (k : String) (v : β) : List (String × β) :=
  match l with
  | [] => [(k, v)]
  | (k', v') :: t => if k' = k then (k, v) :: t else (k', v') :: aset t k v

/-- Association-list deletion; embeds Python `del dict[k]`. -/
def adel {β : Type} (l : List (String × β)) (k : String) : List (String × β) :=
  l.filter (fun p => p.1 ≠ k)

theorem alook_aset_self {β : Type} (l : List (String × β)) (k : String) (v : β) :
    alook (aset l k v) k = some v := by
  induction l with
  | nil => simp [aset, alook]
  | cons p t ih =>
    by_cases h : p.1 = k
    · simp [aset, alook, h]
    · simp [aset, alook, h, ih]

theorem alook_aset_ne {β : Type} (l : List (String × β)) (k k' : String) (v : β)
    (h : k ≠ k') : alook (aset l k v) k' = alook l k' := by
  induction l with
  | nil => simp [aset, alook, h]
  | cons p t ih =>
    by_cases hp : p.1 = k
    · subst hp
      simp [aset, alook, h]
    · simp only [aset, if_neg hp]
      by_cases hp' : p.1 = k'
      · simp [alook, hp']
      · simp [alook, hp', ih]

theorem mem_aset {β : Type} {l : List (String × β)} {k : String} {v : β} {x : String × β}
    (h : x ∈ aset l k v) : x = (k, v) ∨ x ∈ l := by
  induction l with
  | nil => simpa [aset] using h
  | cons p t ih =>
    by_cases hp : p.1 = k
    · simp only [aset, if_pos hp, List.mem_cons] at h
      rcases h with h | h
      · exact Or.inl h
      · exact Or.inr (List.mem_cons_of_mem _ h)
    · simp only [aset, if_neg hp, List.mem_cons] at h
      rcases h with h | h
      · exact Or.inr (by simp [h])
      · rcases ih h with h' | h'
        · exact Or.inl h'
        · exact Or.inr (List.mem_cons_of_mem _ h')

theorem self_mem_aset {β : Type} (l : List (String × β)) (k : String) (v : β) :
    (k, v) ∈ aset l k v := by
  induction l with
  | nil => simp [aset]
  | cons p t ih =>
    by_cases hp : p.1 = k
    · simp [aset, hp]
    · simp [aset, hp, ih]

theorem alook_adel_self {β : Type} (l : List (String × β)) (k : String) :
    alook (adel l k) k = none := by
  induction l with
  | nil => simp [adel, alook]
  | cons p t ih =>
    by_cases hp : p.1 = k
    · simpa [adel, hp] using ih
    · simpa [adel, alook, hp] using ih

/-!
## The response future (asyncio.Future)

`request_clarification` creates one `asyncio.Future` per clarification and
stores it in `self.response_futures`.  A future is single-assignment:
`set_result` / `set_exception` raise `InvalidStateError` when the future is
already done, `cancel()` on a done future is a no-op returning `False`, and
`done()` reports whether the future has been resolved.  The handler can only
resolve a future with a string result (`set_result(response)`), a timeout
(`set_exception(asyncio.TimeoutError())`) or a cancellation (`cancel()`), so
the object state is one of the four constructors below.
-/

inductive FutureState where
  | unresolved
  | result (v : String)
  | excTimeout
  | cancelled
deriving DecidableEq, Repr

/-- `future.done()`: true once the future has been resolved in any way. -/
def FutureState.done : FutureState → Bool
  | .unresolved => false
  | _ => true

/-- `future.set_result(v)`; raises `InvalidStateError` when already done. -/
def futSetResult (f : FutureState) (v : String) : Except String FutureState :=
  match f with
  | .unresolved => .ok (.result v)
  | _ => .error "InvalidStateError"

/-- `future.set_exception(asyncio.TimeoutError())`; raises
`InvalidStateError` when already done. -/
def futSetException (f : FutureState) : Except String FutureState :=
  match f with
  | .unresolved => .ok .excTimeout
  | _ => .error "InvalidStateError"

/-- `future.cancel()`: marks an unresolved future cancelled; a no-op on a
done future (never raises). -/
def futCancel (f : FutureState) : FutureState :=
  match f with
  | .unresolved => .cancelled
  | _ => f

/-!
## Clarification data model (websocket_models.ClarificationContext)
-/

/-- `ClarificationContext` from websocket_models.py (the `created_at` /
`responded_at` timestamps and free-form `context` dict carry no information
used by any handler decision and are omitted). -/
structure ClarCtx where
  clarification_id : String
  client_id : String
  run_id : String
  question : String
  timeout_seconds : Nat
  options : Option (List String)
  status : String
  response : Option String
deriving DecidableEq, Repr

/-- Messages the engine sends to clients, restricted to the message types the
modelled methods emit.  Each constructor carries the target client and the
payload fields that the corresponding pydantic model populates. -/
inductive OutMsg where
  | clarificationRequest (client_id clarification_id question : String) (timeout_seconds : Nat)
  | clarificationAck (client_id clarification_id message status : String)
  | clarificationTimeoutMsg (client_id clarification_id message : String)
  | processingStatus (client_id run_id status message : String)
deriving DecidableEq, Repr

/-- State owned by `ClarificationHandler`.  `pending` is the
`pending_clarifications` dict.  The `response_futures` dict is split in two:
`futureDict` holds the dict's key set (an entry disappears when
`_cleanup_clarification` executes `del self.response_futures[id]`), while
`futureVal` holds the state of the future *object* created for each id — the
object outlives its dict entry because the suspended
`request_clarification` coroutine still holds it, and the exactly-once
property is about the object.  `timeout_tasks` only stores task handles used
for cancellation of the sleep; it carries no data any modelled decision reads
and is omitted. -/
structure HandlerState where
  pending : List (String × ClarCtx)
  futureDict : List String
  futureVal : List (String × FutureState)
deriving DecidableEq, Repr

def emptyHandler : HandlerState := ⟨[], [], []⟩

/-- Lines 39–82 of clarification_handler.py (`request_clarification` up to and
including the send of the `clarification_request` message): creates the
pending context, the response future, and emits the request.  The
`send_message` transport is modelled as always succeeding (the `not success`
raise is a transport-failure path outside every claim), and the timeout task
is represented by the separate `handleTimeout` transition below, which may
fire at any point the scheduler chooses. -/
def startClarification (s : HandlerState) (cid client rid question : String)
    (timeout : Nat) (options : Option (List String)) : HandlerState × List OutMsg :=
  let ctx : ClarCtx :=
    { clarification_id := cid, client_id := client, run_id := rid,
      question := question, timeout_seconds := timeout, options := options,
      status := "pending", response := none }
  ({ pending := aset s.pending cid ctx,
     futureDict := cid :: s.futureDict,
     futureVal := aset s.futureVal cid .unresolved },
   [.clarificationRequest client cid question timeout])

/-- `_cleanup_clarification` (lines 268–282): cancels and drops the timeout
task (not modelled) and deletes the `response_futures` entry; the context is
deliberately kept.  The future object itself (`futureVal`) survives — only
the dict reference goes away. -/
def cleanupClarification (s : HandlerState) (cid : String) : HandlerState :=
  { s with futureDict := s.futureDict.filter (fun x => x ≠ cid) }

/-- Lines 175–184 of `handle_clarification_response`: `if clarification_id in
self.response_futures: ... if not future.done(): future.set_result(response)
else: log warning; else: log error`.  Returns `.error` only if an unguarded
`set_result` were to hit an already-done future (`InvalidStateError`). -/
def setFutureResult (s : HandlerState) (cid v : String) : Except String HandlerState :=
  if s.futureDict.contains cid then
    match alook s.futureVal cid with
    | some f =>
      if f.done then
        .ok s
      else
        match futSetResult f v with
        | .ok f' => .ok { s with futureVal := aset s.futureVal cid f' }
        | .error e => .error e
    | none => .ok s
  else .ok s

/-- Lines 239–242 of `_handle_timeout`: `if clarification_id in
self.response_futures: ... if not future.done():
future.set_exception(asyncio.TimeoutError())`. -/
def setFutureTimeout (s : HandlerState) (cid : String) : Except String HandlerState :=
  if s.futureDict.contains cid then
    match alook s.futureVal cid with
    | some f =>
      if f.done then
        .ok s
      else
        match futSetException f with
        | .ok f' => .ok { s with futureVal := aset s.futureVal cid f' }
        | .error e => .error e
    | none => .ok s
  else .ok s

/-- Line 163's option check, `if clarification_context.options and response
not in clarification_context.options`: Python truthiness makes `None` and the
empty list both skip the check, so only a declared *non-empty* options list
can reject a response. -/
def optionsReject (options : Option (List String)) (resp : String) : Bool :=
  match options with
  | some opts => !opts.isEmpty && !opts.contains resp
  | none => false

/-- `handle_clarification_response` (lines 116–197).  Validates that a pending
context with this id exists, that it belongs to the claimed client, that it
is still `"pending"`, and — when a non-empty options list was declared — that
the response is one of the options.  Every validation failure sends a single
`clarification_acknowledged` with `status="error"` and returns without
touching any state.  On success the response future is resolved (guarded by
`done()`) and a `status="processed"` acknowledgment is sent.  Note the
success path never mutates the context: the `"responded"` transition happens
in `request_clarification` when the waiter resumes. -/
def handleClarificationResponse (s : HandlerState) (client cid resp : String) :
    Except String (HandlerState × List OutMsg) :=
  match alook s.pending cid with
  | none =>
    .ok (s, [.clarificationAck client cid "No pending clarification found with this ID" "error"])
  | some ctx =>
    if ctx.client_id ≠ client then
      .ok (s, [.clarificationAck client cid "Clarification does not belong to this client" "error"])
    else if ctx.status ≠ "pending" then
      .ok (s, [.clarificationAck client cid ("Clarification already " ++ ctx.status) "error"])
    else if optionsReject ctx.options resp then
      .ok (s, [.clarificationAck client cid "Invalid response. Expected one of the declared options" "error"])
    else
      match setFutureResult s cid resp with
      | .ok s1 => .ok (s1, [.clarificationAck client cid "Response received successfully" "processed"])
      | .error e => .error e

/-- The body of `_handle_timeout` after the `asyncio.sleep` returns
(lines 231–249): if the context still exists and is still `"pending"`, flip
it to `"timeout"`, set `asyncio.TimeoutError` on the not-yet-done future and
notify the client; otherwise do nothing.  (When the sleep is cancelled by a
response this body never runs, which in this embedding simply means the
transition is never applied.) -/
def handleTimeout (s : HandlerState) (cid : String) :
    Except String (HandlerState × List OutMsg) :=
  match alook s.pending cid with
  | some ctx =>
    if ctx.status = "pending" then
      let s1 := { s with pending := aset s.pending cid { ctx with status := "timeout" } }
      match setFutureTimeout s1 cid with
      | .ok s2 =>
        .ok (s2, [.clarificationTimeoutMsg ctx.client_id cid "Clarification request timed out"])
      | .error e => .error e
    else .ok (s, [])
  | none => .ok (s, [])

/-- Lines 207–211 of `cancel_clarification`: `if clarification_id in
self.response_futures: ... if not future.done(): future.cancel()`. -/
def cancelFutureIfPending (s : HandlerState) (cid : String) : HandlerState :=
  if s.futureDict.contains cid then
    match alook s.futureVal cid with
    | some f =>
      if f.done then s
      else { s with futureVal := aset s.futureVal cid (futCancel f) }
    | none => s
  else s

/-- `cancel_clarification` (lines 199–224): no-op on an unknown id; otherwise
unconditionally marks the context `"cancelled"`, cancels the future only when
it is not yet done (`future.cancel()` never raises), notifies the client with
a `clarification_timeout` message, and cleans up. -/
def cancelClarification (s : HandlerState) (cid reason : String) :
    HandlerState × List OutMsg :=
  match alook s.pending cid with
  | none => (s, [])
  | some ctx =>
    let s1 := { s with pending := aset s.pending cid { ctx with status := "cancelled" } }
    (cleanupClarification (cancelFutureIfPending s1 cid) cid,
     [.clarificationTimeoutMsg ctx.client_id cid ("Clarification cancelled: " ++ reason)])

/-- `get_pending_clarifications(client_id)` (lines 284–294) restricted to the
key list the orchestrator iterates over: the ids of contexts whose
`client_id` matches and whose status is `"pending"`.  Note the filter is by
client, not by run. -/
def getPendingClarificationIds (s : HandlerState) (client : String) : List String :=
  (s.pending.filter (fun p => p.2.client_id = client ∧ p.2.status = "pending")).map Prod.fst

/-- The three independent execution paths that can try to resolve a
clarification's waiter: an incoming `clarification_response`, the timeout
watcher firing, and an explicit cancellation.  The scheduler may apply them
in any order. -/
inductive ClarOp where
  | response (client cid resp : String)
  | timeoutFire (cid : String)
  | cancel (cid reason : String)

def applyClarOp (s : HandlerState) : ClarOp → Except String (HandlerState × List OutMsg)
  | .response client cid resp => handleClarificationResponse s client cid resp
  | .timeoutFire cid => handleTimeout s cid
  | .cancel cid reason => .ok (cancelClarification s cid reason)

/-!
## Execution tracker (websocket_tool_wrapper.ToolExecutionTracker)

Tool results are `Any` in Python; the claims only ever compare them for
identity, so a result is modelled as `Option String` (`none` is Python
`None`, the default of `mark_executed`'s `result` argument).
-/

abbrev Val : Type := Option String

/-- `ToolExecutionRecord` (dataclass, lines 18–28).  `execution_time` is the
logical timestamp the tracker's clock had when the record was created. -/
structure ExecRecord where
  run_id : String
  tool_id : String
  step_id : String
  execution_time : Nat
  status : String
  result : Val
  error : Option String
deriving DecidableEq, Repr

/-- `ToolExecutionTracker` state.  `executions` maps a run to the set of
executed step ids (a Python `set`, modelled as a list inserted without
duplicates, only membership is ever queried); `records` is the
`execution_records` dict keyed by `f"{run_id}:{step_id}"`; `clock` embeds
`datetime.now()`, strictly increasing across calls.  The per-structure thread
lock makes every method atomic, which is exactly what a sequential state
transformer gives. -/
structure TrackerState where
  executions : List (String × List String)
  records : List (String × ExecRecord)
  clock : Nat
deriving DecidableEq, Repr

def emptyTracker : TrackerState := ⟨[], [], 0⟩

/-- The step-id set recorded for a run (empty when the run is unknown). -/
def execSetOf (s : TrackerState) (rid : String) : List String :=
  (alook s.executions rid).getD []

/-- `should_execute` (lines 44–71): initialises the run's entry when absent
(`self.executions[run_id] = set()`), then answers whether the step id is new.
Returns the answer together with the (possibly initialised) state; `tool_id`
is only logged, never consulted. -/
def shouldExecute (s : TrackerState) (run_id tool_id step_id : String) :
    Bool × TrackerState :=
  let s1 :=
    match alook s.executions run_id with
    | some _ => s
    | none => { s with executions := aset s.executions run_id [] }
  if (execSetOf s1 run_id).contains step_id then (false, s1) else (true, s1)

/-- The record key `f"{run_id}:{step_id}"`. -/
def recKey (run_id step_id : String) : String := run_id ++ ":" ++ step_id

/-- `mark_executed` (lines 73–115): initialises the run's entry when absent,
adds the step id to the run's set, and stores the detailed record under
`recKey` with the current clock as its `execution_time`. -/
def markExecuted (s : TrackerState) (run_id tool_id step_id status : String)
    (result : Val) (error : Option String) : TrackerState :=
  let cur := execSetOf s run_id
  let newSet := if cur.contains step_id then cur else cur ++ [step_id]
  { executions := aset s.executions run_id newSet,
    records := aset s.records (recKey run_id step_id)
      { run_id := run_id, tool_id := tool_id, step_id := step_id,
        execution_time := s.clock, status := status, result := result, error := error },
    clock := s.clock + 1 }

/-- `cleanup_run` (lines 131–158): drops the run's execution set and every
record whose key starts with `f"{run_id}:"` (equivalently, by construction of
the keys, every record created for this run; the embedding filters on the
stored `run_id` field, which `recKey` makes equivalent). -/
def cleanupRun (s : TrackerState) (run_id : String) : TrackerState :=
  { s with
    executions := adel s.executions run_id,
    records := s.records.filter (fun p => p.2.run_id ≠ run_id) }

/-- `get_execution_records` (lines 173–188): all records whose `run_id`
field matches, sorted by `execution_time` (Python's stable `sorted`;
insertion sort is stable and agrees with it). -/
def getExecutionRecords (s : TrackerState) (run_id : String) : List ExecRecord :=
  List.insertionSort (fun a b => a.execution_time ≤ b.execution_time)
    ((s.records.map Prod.snd).filter (fun r => r.run_id = run_id))

/-- The duplicate-tool scan at the top of both `run` methods (lines 347–356
and 668–677): the first record of this run whose `tool_id` matches and whose
status is `"completed"`. -/
def findCompletedForTool (records : List ExecRecord) (tool_id : String) :
    Option ExecRecord :=
  records.find? (fun r => r.tool_id = tool_id ∧ r.status = "completed")

/-- The tracker calls a claim can interleave: `should_execute` (which may
initialise a run entry) and `mark_executed`. -/
inductive TrackerOp where
  | should (run_id tool_id step_id : String)
  | mark (run_id tool_id step_id status : String) (result : Val) (error : Option String)

def applyTrackerOp (s : TrackerState) : TrackerOp → TrackerState
  | .should r t sid => (shouldExecute s r t sid).2
  | .mark r t sid st res err => markExecuted s r t sid st res err

def applyTrackerOps (s : TrackerState) (ops : List TrackerOp) : TrackerState :=
  ops.foldl applyTrackerOp s

/-- Whether an operation is a `mark_executed` for this exact
(run_id, step_id) pair. -/
def marksStep (rid sid : String) : TrackerOp → Bool
  | .mark r _ s _ _ _ => r = rid ∧ s = sid
  | .should _ _ _ => false

/-!
## Step-id generation (websocket_tool_wrapper._generate_unique_step_id)
-/

/-- The randomness `_generate_unique_step_id` draws: the millisecond
timestamp, the base `uuid4().hex[:8]` suffix, one fresh `uuid4().hex[:4]`
suffix per collision retry (indexed by the collision counter), and the full
`uuid4().hex` used by the fallback. -/
structure StepIdRand where
  now_ms : Nat
  base_suffix : String
  extra : Nat → String
  fallback_uuid : String

/-- `f"{self.tool_name}_{run_id[:8]}_{timestamp}_{unique_suffix}"`. -/
def baseStepId (tool_name run_id : String) (r : StepIdRand) : String :=
  tool_name ++ "_" ++ run_id.take 8 ++ "_" ++ toString r.now_ms ++ "_" ++ r.base_suffix

/-- Whether a candidate id collides with an already-recorded step id of this
run (lines 263–265: no collision when the run has no entry at all). -/
def stepIdTaken (s : TrackerState) (run_id cand : String) : Bool :=
  match alook s.executions run_id with
  | some l => l.contains cand
  | none => false

/-- The `while collision_count < max_retries` loop of
`_generate_unique_step_id` (lines 256–286), recursing on the number of
membership checks still allowed (`max_retries - collision_count`, initially
5).  On a collision the counter is incremented first and the next candidate
is `f"{base_step_id}_{collision_count}_{extra_suffix}"`; when the budget is
exhausted the fallback `f"{self.tool_name}_{uuid.uuid4().hex}"` is
returned (the last constructed candidate is never checked). -/
def stepIdLoop (taken : String → Bool) (base : String) (extra : Nat → String)
    (fallback : String) : Nat → Nat → String → String
  | 0, _, _ => fallback
  | remaining + 1, count, cand =>
    if taken cand then
      stepIdLoop taken base extra fallback remaining (count + 1)
        (base ++ "_" ++ toString (count + 1) ++ "_" ++ extra (count + 1))
    else cand

/-- `_generate_unique_step_id` (lines 241–286). -/
def generateUniqueStepId (tool_name run_id : String) (s : TrackerState)
    (r : StepIdRand) : String :=
  stepIdLoop (stepIdTaken s run_id) (baseStepId tool_name run_id r) r.extra
    (tool_name ++ "_" ++ r.fallback_uuid) 5 0 (baseStepId tool_name run_id r)

/-- Modelled from the spec's description of the collision policy (spec §3):
candidate number 0 is the base id
`{tool_name}_{run_id_prefix}_{timestamp_ms}_{random_suffix}`, and candidate
number k+1 appends the incrementing collision counter plus fresh randomness
to the base.  Used only to state the C8 characterisation theorem. -/
def stepCandidate (tool_name run_id : String) (r : StepIdRand) : Nat → String
  | 0 => baseStepId tool_name run_id r
  | k + 1 => baseStepId tool_name run_id r ++ "_" ++ toString (k + 1) ++ "_" ++ r.extra (k + 1)

/-!
## Step updates and the Tool Execution Bridge (WebSocketToolWrapper.run)
-/

/-- `StepUpdate` as populated by `_send_step_update_sync` /
`_send_clarification_update_sync`. -/
structure StepUpd where
  step_id : String
  step_name : String
  status : String
  output : Val
  error : Option String
  execution_time_ms : Option Nat
deriving DecidableEq, Repr

deriving instance DecidableEq for Except

/-- What one call of `WebSocketToolWrapper.run` produces: the value returned
or the exception raised (`Except.error`), the tracker state after the call,
the step updates dispatched (in the order the method hands them to
`_send_step_update_sync`), and how many times the underlying tool's `run`
was invoked. -/
structure RunResult where
  outcome : Except String Val
  tracker : TrackerState
  dispatched : List StepUpd
  toolInvocations : Nat
deriving DecidableEq, Repr

/-- `WebSocketToolWrapper.run` (lines 332–407).  The underlying tool is an
opaque unit of work, represented by the value it returns or the exception it
raises when invoked (`tool`); `elapsed_ms` is the measured
`int((time.time() - start_time) * 1000)`.  When no run id is reachable the
tool is called directly with no instrumentation; otherwise the duplicate-tool
scan may short-circuit to the cached result; otherwise a fresh step id is
generated, `"started"` is dispatched, the tool is invoked, the outcome is
recorded and the matching terminal update is dispatched, and on failure the
original exception is re-raised unchanged (bare `raise`). -/
def wsRun (tool_id tool_name : String) (ts : TrackerState) (run_id : Option String)
    (tool : Except String Val) (r : StepIdRand) (elapsed_ms : Nat) : RunResult :=
  match run_id with
  | none => { outcome := tool, tracker := ts, dispatched := [], toolInvocations := 1 }
  | some rid =>
    match findCompletedForTool (getExecutionRecords ts rid) tool_id with
    | some rec =>
      { outcome := .ok rec.result, tracker := ts, dispatched := [], toolInvocations := 0 }
    | none =>
      let sid := generateUniqueStepId tool_name rid ts r
      let started : StepUpd :=
        { step_id := sid, step_name := tool_name, status := "started",
          output := none, error := none, execution_time_ms := none }
      match tool with
      | .ok v =>
        { outcome := .ok v,
          tracker := markExecuted ts rid tool_id sid "completed" v none,
          dispatched := [started,
            { step_id := sid, step_name := tool_name, status := "completed",
              output := v, error := none, execution_time_ms := some elapsed_ms }],
          toolInvocations := 1 }
      | .error e =>
        { outcome := .error e,
          tracker := markExecuted ts rid tool_id sid "failed" none (some e),
          dispatched := [started,
            { step_id := sid, step_name := tool_name, status := "failed",
              output := none, error := some e, execution_time_ms := some elapsed_ms }],
          toolInvocations := 1 }

/-!
## Emission model for the dispatched step updates

`_send_step_update_sync` (lines 489–556) does not transmit the update
itself: it spawns a fresh daemon thread whose job is to submit
`orchestrator.send_step_update` to the event loop via
`run_coroutine_threadsafe`.  Nothing synchronises those threads with each
other, so the order in which two dispatched updates reach the loop — and
hence the order the client observes on the wire — is decided by the OS
scheduler: any interleaving of the submissions is possible.  The observable
message stream is therefore modelled as an arbitrary permutation of the
dispatched list. -/
def possibleEmissions (dispatched : List StepUpd) : List (List StepUpd) :=
  dispatched.permutations

/-- Whether a stream of step updates shows, for every step id, any
`"completed"`/`"failed"` update only after a `"started"` update for the same
step id has already appeared. -/
def startedPrecedesTerminal : List StepUpd → List String → Bool
  | [], _ => true
  | u :: t, seen =>
    if u.status = "completed" ∨ u.status = "failed" then
      seen.contains u.step_id && startedPrecedesTerminal t seen
    else if u.status = "started" then
      startedPrecedesTerminal t (u.step_id :: seen)
    else
      startedPrecedesTerminal t seen

/-!
## The synchronous clarification bridge
(WebSocketClarificationToolWrapper._request_clarification_sync, lines
807–890) and the waiter coroutine it drives.
-/

/-- How the `request_clarification` coroutine finishes once the future it
awaits has been resolved (or fails to finish).  `exc m` is an `Exception`
with message `m`; `cancelledErr` is `asyncio.CancelledError`, which is a
`BaseException` and so passes through every `except Exception` handler;
`stillWaiting` means the future is unresolved and the coroutine remains
suspended past the bridge's own 310 s deadline. -/
inductive CoroutineOutcome where
  | ret (v : String)
  | exc (m : String)
  | cancelledErr
  | stillWaiting
deriving DecidableEq, Repr

/-- The text of the exception `request_clarification` raises on timeout
(line 104). -/
def timeoutExcMsg (cid : String) (timeout : Nat) : String :=
  "Clarification request " ++ cid ++ " timed out after " ++ toString timeout ++ " seconds"

/-- The continuation of `request_clarification` after `await response_future`
returns or raises (lines 84–114), given the state of the future object.  On
a result: cancel the timeout task, mark the context `"responded"` with the
response, clean up (the `finally`), return the response.  On
`asyncio.TimeoutError`: mark the context `"timeout"`, send the timeout
notification, raise the timeout `Exception` (cleaned up by the outer
`except`/`finally`).  On a cancelled future the `await` raises
`asyncio.CancelledError`, which neither `except` clause catches, so only the
`finally` cleanup runs.  `client` and `timeout` are the coroutine's own
arguments, used for the notification and the exception text. -/
def resumeWaiter (s : HandlerState) (cid client : String) (timeout : Nat) :
    CoroutineOutcome × HandlerState × List OutMsg :=
  match alook s.futureVal cid with
  | some (.result v) =>
    let s1 :=
      match alook s.pending cid with
      | some ctx =>
        { s with pending := aset s.pending cid { ctx with status := "responded", response := some v } }
      | none => s
    (.ret v, cleanupClarification s1 cid, [])
  | some .excTimeout =>
    let s1 :=
      match alook s.pending cid with
      | some ctx => { s with pending := aset s.pending cid { ctx with status := "timeout" } }
      | none => s
    (.exc (timeoutExcMsg cid timeout), cleanupClarification s1 cid,
     [.clarificationTimeoutMsg client cid "Clarification request timed out"])
  | some .cancelled => (.cancelledErr, cleanupClarification s cid, [])
  | some .unresolved => (.stillWaiting, s, [])
  | none => (.stillWaiting, s, [])

/-- What `_request_clarification_sync` hands back to `run`: either a string
return value or a propagating `BaseException` (the only exception class that
can escape it, since the outer `except Exception` swallows everything else
and returns the canned fallback `"YES"`, lines 882–890). -/
inductive SyncOutcome where
  | ret (v : String)
  | raisedBase (m : String)
deriving DecidableEq, Repr

/-- `_request_clarification_sync` (lines 807–890) as a function of whether an
event loop is reachable and of how the scheduled coroutine finishes.  No
loop: the descriptive `Exception` raised at line 843 is caught by the outer
handler, which returns `"YES"`.  Coroutine returns `v`: `future.result`
returns `v`.  Coroutine raises an `Exception`: `future.result` re-raises it,
the inner `except Exception: raise` re-raises it, and the outer
`except Exception` swallows it and returns `"YES"`.  Coroutine never
finishes: `future.result(timeout=310)` raises
`concurrent.futures.TimeoutError`, turned into an `Exception` at line 875,
again swallowed into `"YES"`.  Only `asyncio.CancelledError`
(a `BaseException`) escapes. -/
def requestClarificationSync (hasLoop : Bool) (co : CoroutineOutcome) : SyncOutcome :=
  if !hasLoop then .ret "YES"
  else
    match co with
    | .ret v => .ret v
    | .exc _ => .ret "YES"
    | .stillWaiting => .ret "YES"
    | .cancelledErr => .raisedBase "CancelledError"

/-- The step update built by `_send_clarification_update_sync`
(lines 750–805): the step name depends on the status, the tool name is the
literal `"clarification_tool"`, and no execution time is attached. -/
def clarUpd (sid status : String) (response : Option String) (error : Option String) : StepUpd :=
  { step_id := sid,
    step_name :=
      if status = "waiting" then "Waiting for user input"
      else if status = "completed" then "User input received"
      else "Clarification failed",
    status := status, output := response, error := error, execution_time_ms := none }

/-- `WebSocketClarificationToolWrapper.run` (lines 606–724) for the case
where run id and client id are both reachable (the missing-context fallback
calls the original tool directly, like the base wrapper).  After the same
duplicate-tool scan, it dispatches a `"waiting"` update, obtains a response
through `_request_clarification_sync` (`sync`), records it `"completed"` and
dispatches the `"completed"` update.  The `try` body's callees all catch
their own `Exception`s (`_send_clarification_update_sync` and
`_request_clarification_sync` both end in a catch-all), so the method's own
`except Exception` block (lines 714–724, which would wrap the error as
`Exception("Failed to get clarification: ...")`) is unreachable; the only
escaping exception is a `BaseException` from a cancelled future, which
bypasses that handler entirely. -/
def clarificationRun (tool_id tool_name : String) (ts : TrackerState)
    (run_id client_id : Option String) (origTool : Except String Val)
    (sync : SyncOutcome) (r : StepIdRand) : RunResult :=
  match run_id, client_id with
  | some rid, some _ =>
    (match findCompletedForTool (getExecutionRecords ts rid) tool_id with
     | some rec =>
       { outcome := .ok rec.result, tracker := ts, dispatched := [], toolInvocations := 0 }
     | none =>
       let sid := generateUniqueStepId tool_name rid ts r
       let waiting := clarUpd sid "waiting" none none
       match sync with
       | .ret resp =>
         { outcome := .ok (some resp),
           tracker := markExecuted ts rid tool_id sid "completed" (some resp) none,
           dispatched := [waiting, clarUpd sid "completed" (some resp) none],
           toolInvocations := 0 }
       | .raisedBase m =>
         { outcome := .error m, tracker := ts, dispatched := [waiting], toolInvocations := 0 })
  | _, _ => { outcome := origTool, tracker := ts, dispatched := [], toolInvocations := 1 }

/-!
## Connection registry (websocket_manager.WebSocketManager)
-/

/-- `ProcessingSession` (websocket_models.py lines 193–205) restricted to the
fields `disconnect` / `cancel_processing_session` read or write; progress
counters and timestamps are never consulted by the modelled paths. -/
structure ProcSession where
  run_id : String
  client_id : String
  status : String
  error : Option String
deriving DecidableEq, Repr

/-- `WebSocketConnection` (websocket_models.py lines 218–237): the client id
and the run ids of the processing sessions this connection owns. -/
structure ConnInfo where
  client_id : String
  processing_sessions : List String
deriving DecidableEq, Repr

/-- `remove_processing_session` (guarded `list.remove`): drops the first
occurrence of the run id, no-op when absent. -/
def ConnInfo.removeSession (c : ConnInfo) (rid : String) : ConnInfo :=
  { c with processing_sessions := c.processing_sessions.erase rid }

/-- `WebSocketManager` state.  `connections` is the key set of the
`client_id -> WebSocket` dict (the socket handles themselves carry no
state any modelled decision reads); `connection_info` and
`processing_sessions` are the corresponding dicts.  Message handlers,
background tasks and timing configuration are not part of any claim. -/
structure ManagerState where
  connections : List String
  connection_info : List (String × ConnInfo)
  processing_sessions : List (String × ProcSession)
deriving DecidableEq, Repr

/-- `cancel_processing_session` (lines 283–307): no-op on an unknown run id;
otherwise marks the session `"cancelled"` with the reason, notifies the
session's client with a `processing_status` message, and removes the run id
from that client's connection entry.  `send_message` is modelled as a trace
append (transport failure paths are outside every claim). -/
def cancelProcessingSession (m : ManagerState) (rid reason : String) :
    ManagerState × List OutMsg :=
  match alook m.processing_sessions rid with
  | none => (m, [])
  | some sess =>
    let sess' := { sess with status := "cancelled", error := some reason }
    let ci :=
      match alook m.connection_info sess.client_id with
      | some c => aset m.connection_info sess.client_id (c.removeSession rid)
      | none => m.connection_info
    ({ m with processing_sessions := aset m.processing_sessions rid sess',
              connection_info := ci },
     [.processingStatus sess.client_id rid "cancelled" reason])

/-- The cancellation pass inside `disconnect`: iterate over a snapshot
(`.copy()`) of the client's owned run ids and cancel each session,
accumulating the notifications. -/
def cancelSessionsLoop (m : ManagerState) (rids : List String) (reason : String) :
    ManagerState × List OutMsg :=
  rids.foldl
    (fun acc rid =>
      let r := cancelProcessingSession acc.1 rid reason
      (r.1, acc.2 ++ r.2))
    (m, [])

/-- `disconnect` (lines 91–121): returns immediately when the client is not
connected; otherwise cancels every processing session owned by the
connection (with `"Client disconnected: {reason}"`), closes the socket
(transport only), and deletes the `connections` and `connection_info`
entries.  The whole body sits in a `try/except`, so it never raises. -/
def disconnect (m : ManagerState) (client reason : String) :
    ManagerState × List OutMsg :=
  if client ∉ m.connections then (m, [])
  else
    let rids :=
      match alook m.connection_info client with
      | some c => c.processing_sessions
      | none => []
    let r := cancelSessionsLoop m rids ("Client disconnected: " ++ reason)
    ({ r.1 with connections := r.1.connections.filter (fun x => x ≠ client),
                connection_info := adel r.1.connection_info client },
     r.2)

/-!
## Orchestrator cancellation (processing_orchestrator.cancel_processing)
-/

/-- The per-run `session_data` dict of `ProcessingOrchestrator`
(lines 49–61) restricted to the fields `cancel_processing` reads or
writes. -/
structure OrchSession where
  run_id : String
  client_id : String
  error : Option String
deriving DecidableEq, Repr

/-- The composed state `cancel_processing` operates over: the orchestrator's
`active_sessions`, the clarification handler, and the websocket manager. -/
structure SystemState where
  sessions : List (String × OrchSession)
  clar : HandlerState
  mgr : ManagerState
deriving Repr

/-- The clarification-cancellation pass inside `cancel_processing`: cancel
each pending clarification id in turn, accumulating notifications. -/
def cancelClarsLoop (s : HandlerState) (cids : List String) (reason : String) :
    HandlerState × List OutMsg :=
  cids.foldl
    (fun acc cid =>
      let r := cancelClarification acc.1 cid reason
      (r.1, acc.2 ++ r.2))
    (s, [])

/-- `cancel_processing` (lines 307–326): no-op on an unknown run id;
otherwise cancels every clarification returned by
`get_pending_clarifications(client_id)` — filtered by the session's
*client*, not by its run —, stores the reason in the session's `error`
field, and cancels the websocket manager's session (which marks it
`"cancelled"` and notifies the client). -/
def cancelProcessing (st : SystemState) (rid reason : String) :
    SystemState × List OutMsg :=
  match alook st.sessions rid with
  | none => (st, [])
  | some sd =>
    let cids := getPendingClarificationIds st.clar sd.client_id
    let rc := cancelClarsLoop st.clar cids reason
    let sessions' := aset st.sessions rid { sd with error := some reason }
    let rm := cancelProcessingSession st.mgr rid reason
    ({ sessions := sessions', clar := rc.1, mgr := rm.1 }, rc.2 ++ rm.2)

/-!
## Supporting lemmas about the future-resolution paths
-/

theorem done_eq_false_iff (f : FutureState) : f.done = false ↔ f = .unresolved := by
  cases f <;> simp [FutureState.done]

/-- Updating a not-yet-done future entry cannot change any done entry. -/
theorem aset_preserves_done (fv : List (String × FutureState)) (cid : String)
    (f f' : FutureState) (hf : alook fv cid = some f) (hnd : f.done = false) :
    ∀ cid' g, alook fv cid' = some g → g.done = true →
      alook (aset fv cid f') cid' = some g := by
  intro cid' g hg hgd
  by_cases h : cid = cid'
  · subst h
    rw [hf] at hg
    injection hg with e
    subst e
    rw [hnd] at hgd
    cases hgd
  · rw [alook_aset_ne _ _ _ _ h]
    exact hg

/-- `setFutureResult` never raises, leaves `pending` and `futureDict` alone,
and never changes an already-done future. -/
theorem setFutureResult_ok (s : HandlerState) (cid v : String) :
    ∃ s1, setFutureResult s cid v = .ok s1 ∧ s1.pending = s.pending ∧
      s1.futureDict = s.futureDict ∧
      (∀ cid' g, alook s.futureVal cid' = some g → g.done = true →
        alook s1.futureVal cid' = some g) := by
  unfold setFutureResult
  by_cases hc : cid ∈ s.futureDict
  · rcases halook : alook s.futureVal cid with _ | f
    · exact ⟨s, by simp [hc, halook], rfl, rfl, fun _ _ hg _ => hg⟩
    · by_cases hd : f.done = true
      · exact ⟨s, by simp [hc, halook, hd], rfl, rfl, fun _ _ hg _ => hg⟩
      · have hnd : f.done = false := by simpa using hd
        have hf : f = .unresolved := (done_eq_false_iff f).mp hnd
        refine ⟨{ s with futureVal := aset s.futureVal cid (.result v) }, ?_, rfl, rfl, ?_⟩
        · simp [hc, halook, hnd, hf, futSetResult, FutureState.done]
        · exact aset_preserves_done s.futureVal cid f _ halook hnd
  · exact ⟨s, by simp [hc], rfl, rfl, fun _ _ hg _ => hg⟩

/-- `setFutureTimeout` never raises, leaves `pending` and `futureDict` alone,
and never changes an already-done future. -/
theorem setFutureTimeout_ok (s : HandlerState) (cid : String) :
    ∃ s1, setFutureTimeout s cid = .ok s1 ∧ s1.pending = s.pending ∧
      s1.futureDict = s.futureDict ∧
      (∀ cid' g, alook s.futureVal cid' = some g → g.done = true →
        alook s1.futureVal cid' = some g) := by
  unfold setFutureTimeout
  by_cases hc : cid ∈ s.futureDict
  · rcases halook : alook s.futureVal cid with _ | f
    · exact ⟨s, by simp [hc, halook], rfl, rfl, fun _ _ hg _ => hg⟩
    · by_cases hd : f.done = true
      · exact ⟨s, by simp [hc, halook, hd], rfl, rfl, fun _ _ hg _ => hg⟩
      · have hnd : f.done = false := by simpa using hd
        have hf : f = .unresolved := (done_eq_false_iff f).mp hnd
        refine ⟨{ s with futureVal := aset s.futureVal cid .excTimeout }, ?_, rfl, rfl, ?_⟩
        · simp [hc, halook, hnd, hf, futSetException, FutureState.done]
        · exact aset_preserves_done s.futureVal cid f _ halook hnd
  · exact ⟨s, by simp [hc], rfl, rfl, fun _ _ hg _ => hg⟩

/-- The guarded `future.cancel()` of `cancel_clarification` never changes an
already-done future. -/
theorem cancelFutureIfPending_preserves (s : HandlerState) (cid : String) :
    ∀ cid' g, alook s.futureVal cid' = some g → g.done = true →
      alook (cancelFutureIfPending s cid).futureVal cid' = some g := by
  intro cid' g hg hgd
  unfold cancelFutureIfPending
  by_cases hc : cid ∈ s.futureDict
  · rcases halook : alook s.futureVal cid with _ | f
    · simpa [hc, halook] using hg
    · by_cases hd : f.done = true
      · simpa [hc, halook, hd] using hg
      · have hnd : f.done = false := by simpa using hd
        simp only [hc, halook, hnd]
        simpa [hc, halook, hnd] using
          aset_preserves_done s.futureVal cid f (futCancel f) halook hnd cid' g hg hgd
  · simpa [hc] using hg

/-- C1.  For every clarification id, the waiter future is resolved at most
once: each of the three resolution paths — `handle_clarification_response`
setting the result, the timeout watcher setting `TimeoutError`,
`cancel_clarification` cancelling — first checks `future.done()` (the
timeout path additionally checks the context status is still `"pending"`),
so every path runs to completion without raising, and once some path has
resolved the future, every later path leaves the resolved future object
exactly as it is. -/
theorem clar_exactly_once_resolution (s : HandlerState) (op : ClarOp) :
    ∃ s' msgs, applyClarOp s op = .ok (s', msgs) ∧
      ∀ cid f, alook s.futureVal cid = some f → f.done = true →
        alook s'.futureVal cid = some f := by
  cases op with
  | response client cid resp =>
    rcases halook : alook s.pending cid with _ | ctx
    · exact ⟨s, [.clarificationAck client cid "No pending clarification found with this ID" "error"],
        by simp [applyClarOp, handleClarificationResponse, halook], fun _ _ hg _ => hg⟩
    · by_cases h1 : ctx.client_id = client
      · by_cases h2 : ctx.status = "pending"
        · by_cases hopt : optionsReject ctx.options resp = true
          · exact ⟨s, [.clarificationAck client cid "Invalid response. Expected one of the declared options" "error"],
              by simp [applyClarOp, handleClarificationResponse, halook, h1, h2, hopt],
              fun _ _ hg _ => hg⟩
          · obtain ⟨s1, hs1, _, _, hpres⟩ := setFutureResult_ok s cid resp
            exact ⟨s1, [.clarificationAck client cid "Response received successfully" "processed"],
              by simp [applyClarOp, handleClarificationResponse, halook, h1, h2, hopt, hs1],
              hpres⟩
        · exact ⟨s, [.clarificationAck client cid ("Clarification already " ++ ctx.status) "error"],
            by simp [applyClarOp, handleClarificationResponse, halook, h1, h2], fun _ _ hg _ => hg⟩
      · exact ⟨s, [.clarificationAck client cid "Clarification does not belong to this client" "error"],
          by simp [applyClarOp, handleClarificationResponse, halook, h1], fun _ _ hg _ => hg⟩
  | timeoutFire cid =>
    rcases halook : alook s.pending cid with _ | ctx
    · exact ⟨s, [], by simp [applyClarOp, handleTimeout, halook], fun _ _ hg _ => hg⟩
    · by_cases h2 : ctx.status = "pending"
      · obtain ⟨s1, hs1, _, _, hpres⟩ :=
          setFutureTimeout_ok
            { s with pending := aset s.pending cid { ctx with status := "timeout" } } cid
        exact ⟨s1, [.clarificationTimeoutMsg ctx.client_id cid "Clarification request timed out"],
          by simp [applyClarOp, handleTimeout, halook, h2, hs1], hpres⟩
      · exact ⟨s, [], by simp [applyClarOp, handleTimeout, halook, h2], fun _ _ hg _ => hg⟩
  | cancel cid reason =>
    rcases halook : alook s.pending cid with _ | ctx
    · exact ⟨s, [], by simp [applyClarOp, cancelClarification, halook], fun _ _ hg _ => hg⟩
    · refine ⟨cleanupClarification (cancelFutureIfPending
          { s with pending := aset s.pending cid { ctx with status := "cancelled" } } cid) cid,
        [.clarificationTimeoutMsg ctx.client_id cid ("Clarification cancelled: " ++ reason)],
        by simp [applyClarOp, cancelClarification, halook], ?_⟩
      intro cid' g hg hgd
      show alook (cancelFutureIfPending
          { s with pending := aset s.pending cid { ctx with status := "cancelled" } } cid).futureVal cid' = some g
      exact cancelFutureIfPending_preserves _ cid cid' g hg hgd

/-- Witness for C1: a clarification whose future was already resolved with
`"Mumbai"` while the context is still `"pending"`; the timeout watcher then
fires, runs without raising, and leaves the resolved future untouched. -/
def c1State : HandlerState :=
  { pending := [("c1",
      { clarification_id := "c1", client_id := "client1", run_id := "r1",
        question := "Where to?", timeout_seconds := 300, options := none,
        status := "pending", response := none })],
    futureDict := ["c1"],
    futureVal := [("c1", .result "Mumbai")] }

theorem clar_exactly_once_resolution_witness :
    ∃ s' msgs, applyClarOp c1State (.timeoutFire "c1") = .ok (s', msgs) ∧
      alook s'.futureVal "c1" = some (.result "Mumbai") := by
  obtain ⟨s', msgs, h1, h2⟩ := clar_exactly_once_resolution c1State (.timeoutFire "c1")
  exact ⟨s', msgs, h1, h2 "c1" (.result "Mumbai") (by decide) (by decide)⟩

/-- The disjunction of the four validation checks of
`handle_clarification_response` (lines 124–173): unknown clarification id,
foreign client, non-pending status, or a response rejected by the declared
options. -/
def responseValidationFails (s : HandlerState) (client cid resp : String) : Bool :=
  match alook s.pending cid with
  | none => true
  | some ctx =>
    decide (ctx.client_id ≠ client) || decide (ctx.status ≠ "pending") ||
      optionsReject ctx.options resp

/-- C4.  Every `clarification_response` that fails validation — no pending
context with that id, a context belonging to a different client, a context
no longer `"pending"`, or a response outside the declared (non-empty)
options — makes the handler send exactly one `clarification_acknowledged`
with `status="error"` and return with the handler state completely
unchanged: no context transition, no future resolution. -/
theorem response_validation_failure_no_mutation (s : HandlerState)
    (client cid resp : String)
    (h : responseValidationFails s client cid resp = true) :
    ∃ msg, handleClarificationResponse s client cid resp =
      .ok (s, [.clarificationAck client cid msg "error"]) := by
  unfold responseValidationFails at h
  rcases halook : alook s.pending cid with _ | ctx
  · exact ⟨"No pending clarification found with this ID",
      by simp [handleClarificationResponse, halook]⟩
  · rw [halook] at h
    by_cases h1 : ctx.client_id = client
    · by_cases h2 : ctx.status = "pending"
      · have hopt : optionsReject ctx.options resp = true := by
          simpa [h1, h2] using h
        exact ⟨"Invalid response. Expected one of the declared options",
          by simp [handleClarificationResponse, halook, h1, h2, hopt]⟩
      · exact ⟨"Clarification already " ++ ctx.status,
          by simp [handleClarificationResponse, halook, h1, h2]⟩
    · exact ⟨"Clarification does not belong to this client",
        by simp [handleClarificationResponse, halook, h1]⟩

/-- Witness for C4: a response for `"c4"` claimed by the wrong client is
acknowledged with an error and the state is left untouched. -/
def c4State : HandlerState :=
  { pending := [("c4",
      { clarification_id := "c4", client_id := "client1", run_id := "r1",
        question := "Confirm?", timeout_seconds := 300, options := some ["YES", "NO"],
        status := "pending", response := none })],
    futureDict := ["c4"],
    futureVal := [("c4", .unresolved)] }

theorem response_validation_failure_no_mutation_witness :
    ∃ msg, handleClarificationResponse c4State "intruder" "c4" "YES" =
      .ok (c4State, [.clarificationAck "intruder" "c4" msg "error"]) :=
  response_validation_failure_no_mutation c4State "intruder" "c4" "YES" (by decide)

/-!
## Lemmas about the execution tracker (C10, C8)
-/

/-- The boolean `should_execute` answers is exactly "the step id is not in
the run's executed set" (the initialisation of a missing run entry does not
change the answer). -/
theorem shouldExecute_fst (s : TrackerState) (r t sid : String) :
    (shouldExecute s r t sid).1 = !((execSetOf s r).contains sid) := by
  unfold shouldExecute
  rcases h : alook s.executions r with _ | l
  · simp [execSetOf, h, alook_aset_self]
  · simp only [execSetOf, h, Option.getD_some]
    by_cases hm : sid ∈ l <;> simp [hm]

/-- The state `should_execute` returns: unchanged, except that a missing run
entry is initialised to the empty set. -/
theorem shouldExecute_snd (s : TrackerState) (r t sid : String) :
    (shouldExecute s r t sid).2 =
      (match alook s.executions r with
       | some _ => s
       | none => { s with executions := aset s.executions r [] }) := by
  unfold shouldExecute
  rcases h : alook s.executions r with _ | l
  · simp [h, apply_ite Prod.snd]
  · simp [h, apply_ite Prod.snd]

/-- After `mark_executed`, the step id is in the run's executed set. -/
theorem mark_mem_self (s : TrackerState) (rid tid sid st : String)
    (res : Val) (err : Option String) :
    sid ∈ execSetOf (markExecuted s rid tid sid st res err) rid := by
  unfold markExecuted
  simp only [execSetOf, alook_aset_self, Option.getD_some]
  by_cases hm : sid ∈ execSetOf s rid
  · simp only [execSetOf] at hm
    simp [hm]
  · simp only [execSetOf] at hm
    simp [hm]

/-- `mark_executed` for a different (run, step) pair cannot put this step id
into this run's executed set. -/
theorem mark_not_mem_other (s : TrackerState) (rid tid sid st : String)
    (res : Val) (err : Option String) (rid' sid' : String)
    (hne : ¬(rid = rid' ∧ sid = sid'))
    (hc : sid' ∉ execSetOf s rid') :
    sid' ∉ execSetOf (markExecuted s rid tid sid st res err) rid' := by
  unfold markExecuted
  by_cases hr : rid = rid'
  · subst hr
    have hs : sid' ≠ sid := fun h => hne ⟨rfl, h.symm⟩
    simp only [execSetOf, alook_aset_self, Option.getD_some]
    by_cases hm : sid ∈ execSetOf s rid
    · simp only [execSetOf] at hm hc
      simp [hm, hc]
    · simp only [execSetOf] at hm hc
      simp [hm, hc, hs]
  · simp only [execSetOf, alook_aset_ne s.executions rid rid' _ hr]
    simpa [execSetOf] using hc

/-- `should_execute` never adds a step id to any run's executed set. -/
theorem shouldExecute_not_mem (s : TrackerState) (r t sid rid' sid' : String)
    (hc : sid' ∉ execSetOf s rid') :
    sid' ∉ execSetOf (shouldExecute s r t sid).2 rid' := by
  rw [shouldExecute_snd]
  rcases h : alook s.executions r with _ | l
  · by_cases hr : r = rid'
    · subst hr
      simp [execSetOf, alook_aset_self]
    · simpa [execSetOf, alook_aset_ne s.executions r rid' _ hr] using hc
  · exact hc

/-- Applying any sequence of tracker operations that never marks this exact
(run, step) pair keeps the step id out of that run's executed set. -/
theorem trackerOps_no_mark_invariant (rid sid : String) :
    ∀ (ops : List TrackerOp) (s : TrackerState),
      sid ∉ execSetOf s rid →
      (∀ op ∈ ops, marksStep rid sid op = false) →
      sid ∉ execSetOf (applyTrackerOps s ops) rid := by
  intro ops
  induction ops with
  | nil => intro s h _; exact h
  | cons op t ih =>
    intro s h hall
    have hop : marksStep rid sid op = false := hall op (List.mem_cons_self _ _)
    have h' : sid ∉ execSetOf (applyTrackerOp s op) rid := by
      cases op with
      | should r t' s' => exact shouldExecute_not_mem s r t' s' rid sid h
      | mark r t' s' st res err =>
        have hne : ¬(r = rid ∧ s' = sid) := by
          simpa [marksStep] using hop
        exact mark_not_mem_other s r t' s' st res err rid sid hne h
    exact ih (applyTrackerOp s op) h' (fun op' hm => hall op' (List.mem_cons_of_mem _ hm))

/-- `mark_executed` never removes a step id from any run's executed set. -/
theorem mark_mem_preserved (s : TrackerState) (rid tid sid st : String)
    (res : Val) (err : Option String) (rid' sid' : String)
    (h : sid' ∈ execSetOf s rid') :
    sid' ∈ execSetOf (markExecuted s rid tid sid st res err) rid' := by
  unfold markExecuted
  by_cases hr : rid = rid'
  · subst hr
    simp only [execSetOf, alook_aset_self, Option.getD_some]
    by_cases hm : sid ∈ execSetOf s rid
    · simp only [execSetOf] at hm h
      simp [hm, h]
    · simp only [execSetOf] at hm h
      simp [hm, h]
  · simp only [execSetOf, alook_aset_ne s.executions rid rid' _ hr]
    simpa [execSetOf] using h

/-- `should_execute` never removes a step id from any run's executed set. -/
theorem shouldExecute_mem_preserved (s : TrackerState) (r t sid rid' sid' : String)
    (h : sid' ∈ execSetOf s rid') :
    sid' ∈ execSetOf (shouldExecute s r t sid).2 rid' := by
  rw [shouldExecute_snd]
  rcases ha : alook s.executions r with _ | l
  · by_cases hr : r = rid'
    · subst hr
      simp [execSetOf, ha] at h
    · simpa [execSetOf, alook_aset_ne s.executions r rid' _ hr] using h
  · exact h

/-- Once a step id is in a run's executed set, no sequence of tracker
operations takes it out again. -/
theorem trackerOps_mem_invariant (rid sid : String) :
    ∀ (ops : List TrackerOp) (s : TrackerState),
      sid ∈ execSetOf s rid →
      sid ∈ execSetOf (applyTrackerOps s ops) rid := by
  intro ops
  induction ops with
  | nil => intro s h; exact h
  | cons op t ih =>
    intro s h
    have h' : sid ∈ execSetOf (applyTrackerOp s op) rid := by
      cases op with
      | should r t' s' => exact shouldExecute_mem_preserved s r t' s' rid sid h
      | mark r t' s' st res err => exact mark_mem_preserved s r t' s' st res err rid sid h
    exact ih (applyTrackerOp s op) h'

/-- C10.  Tracker deduplication is keyed purely on (run_id, step_id): after
`mark_executed(run_id, tool_id, step_id, status, ...)` with any status at
all, every subsequent `should_execute(run_id, tool_id', step_id)` — after
any further sequence of tracker operations — answers `false` for every tool
id; and starting from a fresh tracker, as long as no `mark_executed` for
this exact (run_id, step_id) pair has happened, `should_execute` answers
`true` — the status argument only lands in the stored record, never in the
dedup decision. -/
theorem tracker_dedup_by_run_and_step :
    (∀ (s : TrackerState) (rid tid sid st : String) (res : Val) (err : Option String)
        (ops : List TrackerOp) (tid' : String),
      (shouldExecute (applyTrackerOps (markExecuted s rid tid sid st res err) ops)
          rid tid' sid).1 = false)
    ∧ (∀ (ops : List TrackerOp) (rid tid sid : String),
        (∀ op ∈ ops, marksStep rid sid op = false) →
        (shouldExecute (applyTrackerOps emptyTracker ops) rid tid sid).1 = true) := by
  constructor
  · intro s rid tid sid st res err ops tid'
    rw [shouldExecute_fst]
    have hmem : sid ∈ execSetOf (applyTrackerOps (markExecuted s rid tid sid st res err) ops) rid :=
      trackerOps_mem_invariant rid sid ops _ (mark_mem_self s rid tid sid st res err)
    simp [hmem]
  · intro ops rid tid sid hall
    rw [shouldExecute_fst]
    have h0 : sid ∉ execSetOf emptyTracker rid := by
      simp [execSetOf, emptyTracker, alook]
    simp [trackerOps_no_mark_invariant rid sid ops emptyTracker h0 hall]

/-- Witness for C10: marking `("r1", "step1")` as `"failed"` makes a
`should_execute` for `"step1"` in `"r1"` issued after two further tracker
operations answer `false` even under a different tool id, while a tracker
that has only seen marks for other step ids still answers `true`. -/
theorem tracker_dedup_by_run_and_step_witness :
    (shouldExecute
        (applyTrackerOps
          (markExecuted emptyTracker "r1" "toolA" "step1" "failed" none (some "boom"))
          [.should "r1" "toolB" "step9", .mark "r1" "toolC" "step2" "completed" none none])
        "r1" "toolB" "step1").1 = false
    ∧ (shouldExecute
        (applyTrackerOps emptyTracker
          [.should "r1" "toolA" "step1", .mark "r1" "toolA" "step2" "completed" none none])
        "r1" "toolA" "step1").1 = true :=
  ⟨tracker_dedup_by_run_and_step.1 emptyTracker "r1" "toolA" "step1" "failed" none (some "boom")
     [.should "r1" "toolB" "step9", .mark "r1" "toolC" "step2" "completed" none none] "toolB",
   tracker_dedup_by_run_and_step.2
     [.should "r1" "toolA" "step1", .mark "r1" "toolA" "step2" "completed" none none]
     "r1" "toolA" "step1" (by decide)⟩

/-- The collision loop, started at collision count `c` with the matching
candidate, returns the first untaken candidate among the next `r`
candidates, and the fallback when all `r` are taken. -/
theorem stepIdLoop_eq_find (tool rid : String) (s : TrackerState) (rand : StepIdRand) :
    ∀ (r c : Nat),
      stepIdLoop (stepIdTaken s rid) (baseStepId tool rid rand) rand.extra
          (tool ++ "_" ++ rand.fallback_uuid) r c (stepCandidate tool rid rand c) =
        (((List.range' c r).map (stepCandidate tool rid rand)).find?
            (fun x => !stepIdTaken s rid x)).getD (tool ++ "_" ++ rand.fallback_uuid) := by
  intro r
  induction r with
  | zero => intro c; simp [stepIdLoop]
  | succ n ih =>
    intro c
    rw [List.range'_succ]
    by_cases ht : stepIdTaken s rid (stepCandidate tool rid rand c) = true
    · have hstep : stepIdLoop (stepIdTaken s rid) (baseStepId tool rid rand) rand.extra
          (tool ++ "_" ++ rand.fallback_uuid) (n + 1) c (stepCandidate tool rid rand c) =
          stepIdLoop (stepIdTaken s rid) (baseStepId tool rid rand) rand.extra
            (tool ++ "_" ++ rand.fallback_uuid) n (c + 1) (stepCandidate tool rid rand (c + 1)) := by
        simp only [stepIdLoop]
        rw [if_pos ht]
        rfl
      rw [hstep, ih (c + 1)]
      simp [List.find?_cons, ht]
    · have hstep : stepIdLoop (stepIdTaken s rid) (baseStepId tool rid rand) rand.extra
          (tool ++ "_" ++ rand.fallback_uuid) (n + 1) c (stepCandidate tool rid rand c) =
          stepCandidate tool rid rand c := by
        simp only [stepIdLoop]
        rw [if_neg ht]
      rw [hstep]
      simp [List.find?_cons, ht]

/-- C8.  `_generate_unique_step_id` implements exactly the collision-retry
policy: the candidates are the base id
`{tool_name}_{run_id_prefix}_{timestamp_ms}_{random_suffix}` followed by
`{base}_{k}_{fresh 4-hex suffix}` for the collision counters k = 1, 2, 3, 4;
the first candidate not already recorded for the run is returned; when all
five candidate checks hit collisions (the bound `max_retries = 5` is
exhausted) the fully-random fallback `{tool_name}_{full_uuid}` is
returned. -/
theorem step_id_generation_policy (tool rid : String) (s : TrackerState) (rand : StepIdRand) :
    generateUniqueStepId tool rid s rand =
      (((List.range 5).map (stepCandidate tool rid rand)).find?
          (fun c => !stepIdTaken s rid c)).getD (tool ++ "_" ++ rand.fallback_uuid) := by
  rw [List.range_eq_range']
  exact stepIdLoop_eq_find tool rid s rand 5 0

/-!
## Lemmas about the Bridge's duplicate-tool scan (C2, C5)
-/

/-- The execution record `mark_executed(run, tool, step, "completed", v)`
stores when the tracker clock reads `clk`. -/
def mkCompletedRec (rid tid sid : String) (clk : Nat) (v : Val) : ExecRecord :=
  { run_id := rid, tool_id := tid, step_id := sid, execution_time := clk,
    status := "completed", result := v, error := none }

/-- Membership in `get_execution_records`: sorting and filtering do not
invent records — exactly the stored records of this run appear. -/
theorem mem_getExecutionRecords (s : TrackerState) (rid : String) (x : ExecRecord) :
    x ∈ getExecutionRecords s rid ↔ x ∈ s.records.map Prod.snd ∧ x.run_id = rid := by
  unfold getExecutionRecords
  rw [List.mem_insertionSort, List.mem_filter]
  simp

/-- After `mark_executed(run, tool, step, "completed", v)` on a tracker with
no completed record for this tool in this run, the duplicate-tool scan finds
exactly the new record. -/
theorem findCompleted_after_mark (ts : TrackerState) (rid tid sid : String) (v : Val)
    (hfresh : findCompletedForTool (getExecutionRecords ts rid) tid = none) :
    findCompletedForTool
        (getExecutionRecords (markExecuted ts rid tid sid "completed" v none) rid) tid =
      some (mkCompletedRec rid tid sid ts.clock v) := by
  have hnone : ∀ x ∈ ts.records.map Prod.snd, x.run_id = rid →
      ¬(x.tool_id = tid ∧ x.status = "completed") := by
    intro x hx hrun hpx
    have hmem : x ∈ getExecutionRecords ts rid :=
      (mem_getExecutionRecords ts rid x).mpr ⟨hx, hrun⟩
    have hno := List.find?_eq_none.mp hfresh x hmem
    simp only [findCompletedForTool] at hno
    simp [hpx.1, hpx.2] at hno
  have hrecords : (markExecuted ts rid tid sid "completed" v none).records =
      aset ts.records (recKey rid sid) (mkCompletedRec rid tid sid ts.clock v) := rfl
  have hsplit : ∀ x ∈ (markExecuted ts rid tid sid "completed" v none).records.map Prod.snd,
      x = mkCompletedRec rid tid sid ts.clock v ∨ x ∈ ts.records.map Prod.snd := by
    intro x hx
    rcases List.mem_map.mp hx with ⟨⟨k, y⟩, hky, hy⟩
    rw [hrecords] at hky
    rcases mem_aset hky with h | h
    · left
      rw [← hy]
      exact congrArg Prod.snd h
    · right
      rw [← hy]
      exact List.mem_map.mpr ⟨(k, y), h, rfl⟩
  have hmemNew : mkCompletedRec rid tid sid ts.clock v ∈
      getExecutionRecords (markExecuted ts rid tid sid "completed" v none) rid := by
    apply (mem_getExecutionRecords _ rid _).mpr
    refine ⟨?_, rfl⟩
    rw [hrecords]
    exact List.mem_map.mpr ⟨(recKey rid sid, _), self_mem_aset _ _ _, rfl⟩
  rcases hfind : findCompletedForTool
      (getExecutionRecords (markExecuted ts rid tid sid "completed" v none) rid) tid with _ | y
  · exfalso
    have hno := List.find?_eq_none.mp hfind _ hmemNew
    simp [findCompletedForTool, mkCompletedRec] at hno
  · have hy := List.find?_some hfind
    have hymem := List.mem_of_find?_eq_some hfind
    have hc := (mem_getExecutionRecords _ rid y).mp hymem
    simp only [findCompletedForTool, decide_eq_true_eq] at hy
    rcases hsplit y hc.1 with h | hold
    · rw [← h]
    · exfalso
      exact hnone y hold hc.2 hy

/-- C2 (amended).  When a tool's first Bridge invocation in a run completes
successfully (there being no prior completed record for that tool in the
run), a second `run` call with the same tool id finds the `"completed"`
execution record, returns its cached result, leaves the tracker untouched,
and does not invoke the underlying tool at all. -/
theorem bridge_idempotent_after_success (ts : TrackerState) (rid tid tname : String)
    (v : Val) (tool2 : Except String Val) (r1 r2 : StepIdRand) (e1 e2 : Nat)
    (hfresh : findCompletedForTool (getExecutionRecords ts rid) tid = none) :
    (wsRun tid tname (wsRun tid tname ts (some rid) (.ok v) r1 e1).tracker
        (some rid) tool2 r2 e2).outcome = .ok v ∧
    (wsRun tid tname (wsRun tid tname ts (some rid) (.ok v) r1 e1).tracker
        (some rid) tool2 r2 e2).toolInvocations = 0 ∧
    (wsRun tid tname (wsRun tid tname ts (some rid) (.ok v) r1 e1).tracker
        (some rid) tool2 r2 e2).tracker =
      (wsRun tid tname ts (some rid) (.ok v) r1 e1).tracker := by
  have h1 : (wsRun tid tname ts (some rid) (.ok v) r1 e1).tracker =
      markExecuted ts rid tid (generateUniqueStepId tname rid ts r1) "completed" v none := by
    simp [wsRun, hfresh]
  rw [h1]
  have h2 := findCompleted_after_mark ts rid tid (generateUniqueStepId tname rid ts r1) v hfresh
  simp [wsRun, h2, mkCompletedRec]

/-- A fixed randomness source for concrete witnesses. -/
def cxRand : StepIdRand :=
  { now_ms := 1000, base_suffix := "aaaaaaaa", extra := fun _ => "bbbb",
    fallback_uuid := "cafebabe" }

/-- Witness for the amended C2: a successful first call caches
`some "out"`, and the second call returns it without running its (failing)
tool. -/
theorem bridge_idempotent_after_success_witness :
    (wsRun "toolA" "toolA"
        (wsRun "toolA" "toolA" emptyTracker (some "r1") (.ok (some "out")) cxRand 5).tracker
        (some "r1") (.error "must not run") cxRand 7).outcome = .ok (some "out") ∧
    (wsRun "toolA" "toolA"
        (wsRun "toolA" "toolA" emptyTracker (some "r1") (.ok (some "out")) cxRand 5).tracker
        (some "r1") (.error "must not run") cxRand 7).toolInvocations = 0 ∧
    (wsRun "toolA" "toolA"
        (wsRun "toolA" "toolA" emptyTracker (some "r1") (.ok (some "out")) cxRand 5).tracker
        (some "r1") (.error "must not run") cxRand 7).tracker =
      (wsRun "toolA" "toolA" emptyTracker (some "r1") (.ok (some "out")) cxRand 5).tracker :=
  bridge_idempotent_after_success emptyTracker "r1" "toolA" "toolA" (some "out")
    (.error "must not run") cxRand cxRand 5 7 (by decide)

/-- C2 exactly as stated, with no assumption on how the first call ended:
two consecutive Bridge `run` calls with the same tool id in the same run
never invoke the underlying tool a second time. -/
def c2ClaimAsStated : Prop :=
  ∀ (ts : TrackerState) (rid tid tname : String) (tool1 tool2 : Except String Val)
    (r1 r2 : StepIdRand) (e1 e2 : Nat),
    (wsRun tid tname (wsRun tid tname ts (some rid) tool1 r1 e1).tracker
        (some rid) tool2 r2 e2).toolInvocations = 0

/-- Counterexample to C2 as stated: when the first invocation *fails*, only
a `"failed"` record is stored, the duplicate-tool scan (which looks for a
`"completed"` record) finds nothing, and the second call invokes the tool
again. -/
theorem bridge_idempotency_counterexample : ¬ c2ClaimAsStated := fun h =>
  absurd
    (h emptyTracker "r1" "toolA" "toolA" (.error "boom") (.error "boom") cxRand cxRand 1 1)
    (by decide)

/-- C5 exactly as stated: whenever the underlying execution raises inside
`run` — for the standard wrapper, the tool itself raising; for the
clarification-class wrapper, the clarification coroutine raising an
`Exception` with message `m` while the wrapper actually performs the request
(it dispatches updates, i.e. no cached short-circuit) — the Bridge re-raises
the original exception unchanged and reports a `"failed"` step update. -/
def c5ClaimAsStated : Prop :=
  (∀ (ts : TrackerState) (rid tid tname e : String) (r : StepIdRand) (el : Nat),
    (wsRun tid tname ts (some rid) (.error e) r el).toolInvocations = 1 →
    (wsRun tid tname ts (some rid) (.error e) r el).outcome = .error e ∧
    "failed" ∈ (wsRun tid tname ts (some rid) (.error e) r el).dispatched.map
      (fun u => u.status)) ∧
  (∀ (ts : TrackerState) (rid cl tid tname m : String) (orig : Except String Val)
      (r : StepIdRand),
    (clarificationRun tid tname ts (some rid) (some cl) orig
        (requestClarificationSync true (.exc m)) r).dispatched ≠ [] →
    (clarificationRun tid tname ts (some rid) (some cl) orig
        (requestClarificationSync true (.exc m)) r).outcome = .error m ∧
    "failed" ∈ (clarificationRun tid tname ts (some rid) (some cl) orig
        (requestClarificationSync true (.exc m)) r).dispatched.map (fun u => u.status))

/-- Counterexample to C5 as stated: on a fresh run, let the clarification
coroutine raise (e.g. its timeout).  `_request_clarification_sync` swallows
the exception and returns the fallback `"YES"`, so the wrapper's run returns
`"YES"` and reports `"completed"` — nothing is re-raised and no failed
update exists. -/
theorem error_reraise_counterexample : ¬ c5ClaimAsStated := by
  intro h
  have hc := h.2 emptyTracker "r1" "client1" "clarification_tool" "clarification_tool"
    "Clarification request clarify_1 timed out after 300 seconds" (.ok none) cxRand
    (by decide)
  exact absurd hc.1 (by decide)

/-- C5 (amended).  On a fresh (run, tool) pair the *standard* wrapper
handles a raising tool exactly as claimed: it records the Execution Record
as `"failed"` with the error, dispatches a `"failed"` step update carrying
the measured duration, and re-raises the original exception unchanged.  The
*clarification-class* wrapper never propagates a clarification `Exception`:
its sync bridge swallows the error and returns the fallback answer
`"YES"`, so the step is recorded and reported `"completed"` with result
`"YES"` instead of failed. -/
theorem error_propagation_amended :
    (∀ (ts : TrackerState) (rid tid tname e : String) (r : StepIdRand) (el : Nat),
      findCompletedForTool (getExecutionRecords ts rid) tid = none →
      (wsRun tid tname ts (some rid) (.error e) r el).outcome = .error e ∧
      (wsRun tid tname ts (some rid) (.error e) r el).tracker =
        markExecuted ts rid tid (generateUniqueStepId tname rid ts r) "failed" none (some e) ∧
      (wsRun tid tname ts (some rid) (.error e) r el).dispatched =
        [{ step_id := generateUniqueStepId tname rid ts r, step_name := tname,
           status := "started", output := none, error := none, execution_time_ms := none },
         { step_id := generateUniqueStepId tname rid ts r, step_name := tname,
           status := "failed", output := none, error := some e, execution_time_ms := some el }]) ∧
    (∀ (ts : TrackerState) (rid cl tid tname m : String) (orig : Except String Val)
        (r : StepIdRand),
      findCompletedForTool (getExecutionRecords ts rid) tid = none →
      requestClarificationSync true (.exc m) = .ret "YES" ∧
      (clarificationRun tid tname ts (some rid) (some cl) orig
          (requestClarificationSync true (.exc m)) r).outcome = .ok (some "YES") ∧
      (clarificationRun tid tname ts (some rid) (some cl) orig
          (requestClarificationSync true (.exc m)) r).tracker =
        markExecuted ts rid tid (generateUniqueStepId tname rid ts r) "completed"
          (some "YES") none ∧
      ((clarificationRun tid tname ts (some rid) (some cl) orig
          (requestClarificationSync true (.exc m)) r).dispatched.map (fun u => u.status)) =
        ["waiting", "completed"]) := by
  constructor
  · intro ts rid tid tname e r el hfresh
    refine ⟨?_, ?_, ?_⟩ <;> simp [wsRun, hfresh]
  · intro ts rid cl tid tname m orig r hfresh
    refine ⟨rfl, ?_, ?_, ?_⟩ <;>
      simp [clarificationRun, hfresh, requestClarificationSync, clarUpd]

/-- Witness for the amended C5: both conjuncts instantiated on a fresh
tracker. -/
theorem error_propagation_amended_witness :
    ((wsRun "toolA" "toolA" emptyTracker (some "r1") (.error "boom") cxRand 9).outcome =
        .error "boom" ∧
      (wsRun "toolA" "toolA" emptyTracker (some "r1") (.error "boom") cxRand 9).tracker =
        markExecuted emptyTracker "r1" "toolA"
          (generateUniqueStepId "toolA" "r1" emptyTracker cxRand) "failed" none (some "boom") ∧
      (wsRun "toolA" "toolA" emptyTracker (some "r1") (.error "boom") cxRand 9).dispatched =
        [{ step_id := generateUniqueStepId "toolA" "r1" emptyTracker cxRand, step_name := "toolA",
           status := "started", output := none, error := none, execution_time_ms := none },
         { step_id := generateUniqueStepId "toolA" "r1" emptyTracker cxRand, step_name := "toolA",
           status := "failed", output := none, error := some "boom", execution_time_ms := some 9 }]) ∧
    (requestClarificationSync true (.exc "timed out") = .ret "YES" ∧
      (clarificationRun "ct" "ct" emptyTracker (some "r1") (some "client1") (.ok none)
          (requestClarificationSync true (.exc "timed out")) cxRand).outcome = .ok (some "YES") ∧
      (clarificationRun "ct" "ct" emptyTracker (some "r1") (some "client1") (.ok none)
          (requestClarificationSync true (.exc "timed out")) cxRand).tracker =
        markExecuted emptyTracker "r1" "ct"
          (generateUniqueStepId "ct" "r1" emptyTracker cxRand) "completed" (some "YES") none ∧
      ((clarificationRun "ct" "ct" emptyTracker (some "r1") (some "client1") (.ok none)
          (requestClarificationSync true (.exc "timed out")) cxRand).dispatched.map
        (fun u => u.status)) = ["waiting", "completed"]) :=
  ⟨error_propagation_amended.1 emptyTracker "r1" "toolA" "toolA" "boom" cxRand 9 (by decide),
   error_propagation_amended.2 emptyTracker "r1" "client1" "ct" "ct" "timed out" (.ok none)
     cxRand (by decide)⟩

/-!
## C7: ordering of started vs completed/failed in the emitted stream
-/

/-- The step id a fresh run under `cxRand` generates. -/
def c7Sid : String := generateUniqueStepId "toolA" "r1" emptyTracker cxRand

def c7Started : StepUpd :=
  { step_id := c7Sid, step_name := "toolA", status := "started",
    output := none, error := none, execution_time_ms := none }

def c7Completed : StepUpd :=
  { step_id := c7Sid, step_name := "toolA", status := "completed",
    output := some "out", error := none, execution_time_ms := some 5 }

/-- C7 evidence.  `run` dispatches `"started"` strictly before
`"completed"` (program order), but each dispatch is handed to its own
unsynchronised daemon thread, so the emitted stream can be any permutation
of the dispatched updates: the reversed stream — `"completed"` observed
before `"started"` — is a possible emission, and on it the claimed ordering
predicate fails, while it holds in dispatch order. -/
theorem step_update_reordering_possible :
    (wsRun "toolA" "toolA" emptyTracker (some "r1") (.ok (some "out")) cxRand 5).dispatched =
      [c7Started, c7Completed] ∧
    [c7Completed, c7Started] ∈ possibleEmissions
      (wsRun "toolA" "toolA" emptyTracker (some "r1") (.ok (some "out")) cxRand 5).dispatched ∧
    startedPrecedesTerminal [c7Completed, c7Started] [] = false ∧
    startedPrecedesTerminal [c7Started, c7Completed] [] = true := by
  have hd : (wsRun "toolA" "toolA" emptyTracker (some "r1") (.ok (some "out")) cxRand 5).dispatched =
      [c7Started, c7Completed] := by decide
  refine ⟨hd, ?_, by decide, by decide⟩
  rw [hd]
  exact List.mem_permutations.mpr (List.Perm.swap c7Started c7Completed [])

/-!
## C3: the timeout scenario end to end
-/

/-- Scenario C, step 1: a clarification `"c1"` is requested from
`"client1"` in run `"r1"` with the default 300 s timeout. -/
def scenarioStart : HandlerState × List OutMsg :=
  startClarification emptyHandler "c1" "client1" "r1" "What is your delivery location?" 300 none

/-- Scenario C, step 2: no response arrives and the timeout watcher's body
runs (it cannot raise; the fallback arm of the match is unreachable). -/
def scenarioAfterTimeout : HandlerState × List OutMsg :=
  match handleTimeout scenarioStart.1 "c1" with
  | .ok p => p
  | .error _ => (scenarioStart.1, [])

/-- Scenario C, step 3: the suspended `request_clarification` coroutine
resumes on the now-resolved future. -/
def scenarioResume : CoroutineOutcome × HandlerState × List OutMsg :=
  resumeWaiter scenarioAfterTimeout.1 "c1" "client1" 300

/-- Scenario C, step 4: what `_request_clarification_sync` hands back to the
wrapper (an event loop is reachable). -/
def scenarioSync : SyncOutcome := requestClarificationSync true scenarioResume.1

/-- Scenario C, step 5: the clarification wrapper's `run` completes with
that answer on a fresh tracker. -/
def scenarioRun : RunResult :=
  clarificationRun "clarification_tool" "clarification_tool" emptyTracker
    (some "r1") (some "client1") (.ok none) scenarioSync cxRand

/-- Every message the server emitted during the scenario. -/
def scenarioMsgs : List OutMsg :=
  scenarioStart.2 ++ scenarioAfterTimeout.2 ++ scenarioResume.2.2

/-- C3 exactly as stated, on the timeout scenario: the server emits
`clarification_timeout`, the suspended tool call raises a timeout error
which the Bridge surfaces as a `"failed"` step update, and the tool call
does not return a normal answer string. -/
def c3ClaimAsStated : Prop :=
  (∃ msg, OutMsg.clarificationTimeoutMsg "client1" "c1" msg ∈ scenarioMsgs) ∧
  (∃ e, scenarioRun.outcome = .error e) ∧
  "failed" ∈ scenarioRun.dispatched.map (fun u => u.status) ∧
  ¬ ∃ v, scenarioRun.outcome = .ok v

/-- Counterexample to C3: in the timeout scenario the wrapper's run returns
normally — `_request_clarification_sync` has swallowed the coroutine's
timeout exception and produced the canned `"YES"` — so no error is raised
and no failed step update is dispatched. -/
theorem scenario_c_counterexample : ¬ c3ClaimAsStated := by
  intro h
  obtain ⟨_, ⟨e, he⟩, _, _⟩ := h
  have hok : scenarioRun.outcome = .ok (some "YES") := by decide
  rw [hok] at he
  cases he

/-- The clarification context as it stands right after the timeout watcher
fired. -/
def timedOutCtx (cid client rid q : String) : ClarCtx :=
  { clarification_id := cid, client_id := client, run_id := rid, question := q,
    timeout_seconds := 300, options := none, status := "timeout", response := none }

/-- The handler state right after the timeout watcher fired on a
single-clarification handler. -/
def timedOutState (cid client rid q : String) : HandlerState :=
  { pending := [(cid, timedOutCtx cid client rid q)],
    futureDict := [cid], futureVal := [(cid, .excTimeout)] }

/-- C3 (amended).  When no reply arrives and the 300 s timeout elapses, the
server does emit `clarification_timeout` and the suspended coroutine does
raise the timeout `Exception`, but `_request_clarification_sync` catches it
and returns the fallback answer `"YES"`: the wrapper's run returns
`"YES"` and dispatches a `"completed"` (not `"failed"`) step update after
the `"waiting"` one. -/
theorem scenario_c_timeout_fallback (cid client rid q tid tname : String)
    (orig : Except String Val) (r : StepIdRand) :
    handleTimeout (startClarification emptyHandler cid client rid q 300 none).1 cid =
      .ok (timedOutState cid client rid q,
           [.clarificationTimeoutMsg client cid "Clarification request timed out"]) ∧
    (resumeWaiter (timedOutState cid client rid q) cid client 300).1 =
      .exc (timeoutExcMsg cid 300) ∧
    requestClarificationSync true (.exc (timeoutExcMsg cid 300)) = .ret "YES" ∧
    (clarificationRun tid tname emptyTracker (some rid) (some client) orig
        (.ret "YES") r).outcome = .ok (some "YES") ∧
    ((clarificationRun tid tname emptyTracker (some rid) (some client) orig
        (.ret "YES") r).dispatched.map (fun u => u.status)) = ["waiting", "completed"] := by
  refine ⟨?_, ?_, rfl, ?_, ?_⟩
  · simp [handleTimeout, startClarification, emptyHandler, aset, alook, setFutureTimeout,
      futSetException, FutureState.done, timedOutState, timedOutCtx]
  · simp [resumeWaiter, alook, timedOutState]
  · simp [clarificationRun, getExecutionRecords, findCompletedForTool, emptyTracker,
      List.insertionSort]
  · simp [clarificationRun, getExecutionRecords, findCompletedForTool, emptyTracker,
      List.insertionSort, clarUpd]

/-!
## Lemmas about the connection registry (C9) and run cancellation (C6)
-/

/-- Every session entry the registry holds for this run id (if any) is
marked cancelled. -/
def sessionCancelled (m : ManagerState) (rid : String) : Prop :=
  ∀ s, alook m.processing_sessions rid = some s → s.status = "cancelled"

theorem cancelPS_self (m : ManagerState) (rid reason : String) :
    sessionCancelled (cancelProcessingSession m rid reason).1 rid := by
  intro s hs
  unfold cancelProcessingSession at hs
  rcases h : alook m.processing_sessions rid with _ | sess
  · rw [h] at hs
    simp only at hs
    rw [h] at hs
    cases hs
  · rw [h] at hs
    simp only [alook_aset_self] at hs
    injection hs with hs
    rw [← hs]

theorem cancelPS_other (m : ManagerState) (rid reason rid' : String) (h : rid' ≠ rid) :
    alook (cancelProcessingSession m rid reason).1.processing_sessions rid' =
      alook m.processing_sessions rid' := by
  unfold cancelProcessingSession
  rcases hs : alook m.processing_sessions rid with _ | sess
  · simp [hs]
  · simp only [hs]
    exact alook_aset_ne m.processing_sessions rid rid' _ (fun he => h he.symm)

theorem cancelPS_preserves_cancelled (m : ManagerState) (rid reason rid' : String)
    (h : sessionCancelled m rid') :
    sessionCancelled (cancelProcessingSession m rid reason).1 rid' := by
  by_cases he : rid' = rid
  · subst he
    exact cancelPS_self m rid' reason
  · intro s hs
    rw [cancelPS_other m rid reason rid' he] at hs
    exact h s hs

/-- The manager-state component of the cancellation pass, without the
message accumulator. -/
def cancelStatesFold (m : ManagerState) (rids : List String) (reason : String) : ManagerState :=
  rids.foldl (fun acc rid => (cancelProcessingSession acc rid reason).1) m

theorem cancelSessionsLoop_fst_aux (reason : String) :
    ∀ (rids : List String) (p : ManagerState × List OutMsg),
      (rids.foldl
        (fun acc rid =>
          let r := cancelProcessingSession acc.1 rid reason
          (r.1, acc.2 ++ r.2)) p).1 = cancelStatesFold p.1 rids reason := by
  intro rids
  induction rids with
  | nil => intro p; rfl
  | cons r t ih =>
    intro p
    simpa [cancelStatesFold] using ih ((cancelProcessingSession p.1 r reason).1, _)

theorem cancelSessionsLoop_fst (m : ManagerState) (rids : List String) (reason : String) :
    (cancelSessionsLoop m rids reason).1 = cancelStatesFold m rids reason :=
  cancelSessionsLoop_fst_aux reason rids (m, [])

theorem cancelStatesFold_preserves (reason : String) :
    ∀ (rids : List String) (m : ManagerState) (rid : String),
      sessionCancelled m rid → sessionCancelled (cancelStatesFold m rids reason) rid := by
  intro rids
  induction rids with
  | nil => intro m rid h; exact h
  | cons r t ih =>
    intro m rid h
    exact ih _ rid (cancelPS_preserves_cancelled m r reason rid h)

theorem cancelStatesFold_cancels (reason : String) :
    ∀ (rids : List String) (m : ManagerState) (rid : String), rid ∈ rids →
      sessionCancelled (cancelStatesFold m rids reason) rid := by
  intro rids
  induction rids with
  | nil => intro m rid h; cases h
  | cons r t ih =>
    intro m rid h
    rcases List.mem_cons.mp h with he | ht
    · subst he
      exact cancelStatesFold_preserves reason t _ rid (cancelPS_self m rid reason)
    · exact ih _ rid ht

/-- `disconnect` on a client that is not connected is a no-op. -/
theorem disconnect_noop (m : ManagerState) (c reason : String) (hc : c ∉ m.connections) :
    disconnect m c reason = (m, []) := by
  simp [disconnect, hc]

theorem disconnect_not_mem_after (m : ManagerState) (c r1 : String) :
    c ∉ (disconnect m c r1).1.connections := by
  unfold disconnect
  by_cases hc : c ∈ m.connections
  · simp [hc]
  · simp [hc]

/-- What `disconnect` does to the registry on a live client with a
connection entry. -/
theorem disconnect_eq_of_mem (m : ManagerState) (c reason : String) (ci : ConnInfo)
    (hc : c ∈ m.connections) (hci : alook m.connection_info c = some ci) :
    (disconnect m c reason).1.processing_sessions =
      (cancelStatesFold m ci.processing_sessions
        ("Client disconnected: " ++ reason)).processing_sessions ∧
    alook (disconnect m c reason).1.connection_info c = none := by
  unfold disconnect
  rw [if_neg (not_not_intro hc), hci]
  exact ⟨by simp [cancelSessionsLoop_fst], by simp [alook_adel_self]⟩

/-- C9.  `disconnect` is idempotent — on a client id that was never
connected (or is already disconnected) it is a no-op that changes no
registry state, sends nothing and raises nothing, and a second call right
after a first is such a no-op — while a single disconnect of a live client
cancels every run session owned by that connection and removes both
connection entries. -/
theorem disconnect_idempotent_and_cancels :
    (∀ (m : ManagerState) (c reason : String), c ∉ m.connections →
      disconnect m c reason = (m, [])) ∧
    (∀ (m : ManagerState) (c r1 r2 : String),
      disconnect (disconnect m c r1).1 c r2 = ((disconnect m c r1).1, [])) ∧
    (∀ (m : ManagerState) (c reason : String) (ci : ConnInfo),
      c ∈ m.connections → alook m.connection_info c = some ci →
      (∀ rid ∈ ci.processing_sessions, sessionCancelled (disconnect m c reason).1 rid) ∧
      c ∉ (disconnect m c reason).1.connections ∧
      alook (disconnect m c reason).1.connection_info c = none) := by
  refine ⟨disconnect_noop, ?_, ?_⟩
  · intro m c r1 r2
    exact disconnect_noop _ c r2 (disconnect_not_mem_after m c r1)
  · intro m c reason ci hc hci
    obtain ⟨hps, hinfo⟩ := disconnect_eq_of_mem m c reason ci hc hci
    refine ⟨?_, disconnect_not_mem_after m c reason, hinfo⟩
    intro rid hrid s hs
    rw [hps] at hs
    exact cancelStatesFold_cancels _ ci.processing_sessions m rid hrid s hs

/-- A concrete registry: client `"cA"` owns runs `"r1"`, `"r2"`; client
`"cB"` owns `"r3"`. -/
def m9 : ManagerState :=
  { connections := ["cA", "cB"],
    connection_info :=
      [("cA", { client_id := "cA", processing_sessions := ["r1", "r2"] }),
       ("cB", { client_id := "cB", processing_sessions := ["r3"] })],
    processing_sessions :=
      [("r1", { run_id := "r1", client_id := "cA", status := "running", error := none }),
       ("r2", { run_id := "r2", client_id := "cA", status := "started", error := none }),
       ("r3", { run_id := "r3", client_id := "cB", status := "running", error := none })] }

def m9ci : ConnInfo := { client_id := "cA", processing_sessions := ["r1", "r2"] }

/-- Witness for C9 on `m9`: disconnecting an unknown client is a no-op,
disconnecting `"cA"` twice is a no-op the second time, and a single
disconnect of `"cA"` cancels its session `"r1"` and removes both
entries. -/
theorem disconnect_idempotent_and_cancels_witness :
    disconnect m9 "ghost" "bye" = (m9, []) ∧
    disconnect (disconnect m9 "cA" "gone").1 "cA" "again" = ((disconnect m9 "cA" "gone").1, []) ∧
    (alook (disconnect m9 "cA" "gone").1.processing_sessions "r1").map (fun s => s.status) =
      some "cancelled" ∧
    "cA" ∉ (disconnect m9 "cA" "gone").1.connections ∧
    alook (disconnect m9 "cA" "gone").1.connection_info "cA" = none := by
  obtain ⟨hcans, hnm, hinfo⟩ :=
    disconnect_idempotent_and_cancels.2.2 m9 "cA" "gone" m9ci (by decide) (by decide)
  refine ⟨disconnect_idempotent_and_cancels.1 m9 "ghost" "bye" (by decide),
    disconnect_idempotent_and_cancels.2.1 m9 "cA" "gone" "again", ?_, hnm, hinfo⟩
  have hs := hcans "r1" (by decide)
  rcases halook : alook (disconnect m9 "cA" "gone").1.processing_sessions "r1" with _ | s
  · exact absurd halook (by decide)
  · simp [hs s halook]

theorem alook_mem {β : Type} (l : List (String × β)) (k : String) (x : β)
    (h : alook l k = some x) : (k, x) ∈ l := by
  induction l with
  | nil => cases h
  | cons p t ih =>
    by_cases hp : p.1 = k
    · unfold alook at h
      rw [if_pos hp] at h
      injection h with h
      exact List.mem_cons.mpr (Or.inl (by rw [← hp, ← h]))
    · unfold alook at h
      rw [if_neg hp] at h
      exact List.mem_cons_of_mem _ (ih h)

theorem alook_of_mem_nodup {β : Type} (l : List (String × β))
    (hnd : (l.map Prod.fst).Nodup) (k : String) (x : β) (h : (k, x) ∈ l) :
    alook l k = some x := by
  induction l with
  | nil => cases h
  | cons p t ih =>
    rcases List.mem_cons.mp h with he | ht
    · rw [← he]
      simp [alook]
    · have hnd' := hnd
      simp only [List.map_cons, List.nodup_cons] at hnd'
      have hk : p.1 ≠ k := by
        intro hpk
        exact hnd'.1 (by rw [hpk]; exact List.mem_map.mpr ⟨(k, x), ht, rfl⟩)
      unfold alook
      rw [if_neg hk]
      exact ih hnd'.2 ht

/-- Every pending-dict entry the handler holds for this id (if any) is
marked cancelled. -/
def clarCancelled (s : HandlerState) (cid : String) : Prop :=
  ∀ ctx, alook s.pending cid = some ctx → ctx.status = "cancelled"

theorem cancelFutureIfPending_pending (s : HandlerState) (cid : String) :
    (cancelFutureIfPending s cid).pending = s.pending := by
  unfold cancelFutureIfPending
  by_cases hc : cid ∈ s.futureDict
  · rcases h : alook s.futureVal cid with _ | f
    · simp [hc, h]
    · by_cases hd : f.done = true <;> simp [hc, h, hd]
  · simp [hc]

theorem cancelClar_pending (s : HandlerState) (cid reason : String) :
    (cancelClarification s cid reason).1.pending =
      (match alook s.pending cid with
       | none => s.pending
       | some ctx => aset s.pending cid { ctx with status := "cancelled" }) := by
  unfold cancelClarification
  rcases h : alook s.pending cid with _ | ctx
  · simp [h]
  · simp only [h]
    show (cancelFutureIfPending _ cid).pending = _
    rw [cancelFutureIfPending_pending]

theorem cancelClar_self (s : HandlerState) (cid reason : String) :
    clarCancelled (cancelClarification s cid reason).1 cid := by
  intro ctx hctx
  rw [cancelClar_pending] at hctx
  rcases h : alook s.pending cid with _ | c0
  · rw [h] at hctx
    simp only at hctx
    rw [h] at hctx
    cases hctx
  · rw [h] at hctx
    simp only [alook_aset_self] at hctx
    injection hctx with hctx
    rw [← hctx]

theorem cancelClar_other (s : HandlerState) (cid reason cid' : String) (h : cid' ≠ cid) :
    alook (cancelClarification s cid reason).1.pending cid' = alook s.pending cid' := by
  rw [cancelClar_pending]
  rcases hh : alook s.pending cid with _ | c0
  · rfl
  · exact alook_aset_ne s.pending cid cid' _ (fun he => h he.symm)

theorem cancelClar_preserves_cancelled (s : HandlerState) (cid reason cid' : String)
    (h : clarCancelled s cid') :
    clarCancelled (cancelClarification s cid reason).1 cid' := by
  by_cases he : cid' = cid
  · subst he
    exact cancelClar_self s cid' reason
  · intro ctx hctx
    rw [cancelClar_other s cid reason cid' he] at hctx
    exact h ctx hctx

/-- The handler-state component of the clarification-cancellation pass. -/
def clarCancelFold (s : HandlerState) (cids : List String) (reason : String) : HandlerState :=
  cids.foldl (fun acc cid => (cancelClarification acc cid reason).1) s

theorem cancelClarsLoop_fst_aux (reason : String) :
    ∀ (cids : List String) (p : HandlerState × List OutMsg),
      (cids.foldl
        (fun acc cid =>
          let r := cancelClarification acc.1 cid reason
          (r.1, acc.2 ++ r.2)) p).1 = clarCancelFold p.1 cids reason := by
  intro cids
  induction cids with
  | nil => intro p; rfl
  | cons r t ih =>
    intro p
    simpa [clarCancelFold] using ih ((cancelClarification p.1 r reason).1, _)

theorem cancelClarsLoop_fst (s : HandlerState) (cids : List String) (reason : String) :
    (cancelClarsLoop s cids reason).1 = clarCancelFold s cids reason :=
  cancelClarsLoop_fst_aux reason cids (s, [])

theorem clarCancelFold_preserves (reason : String) :
    ∀ (cids : List String) (s : HandlerState) (cid : String),
      clarCancelled s cid → clarCancelled (clarCancelFold s cids reason) cid := by
  intro cids
  induction cids with
  | nil => intro s cid h; exact h
  | cons r t ih =>
    intro s cid h
    exact ih _ cid (cancelClar_preserves_cancelled s r reason cid h)

theorem clarCancelFold_cancels (reason : String) :
    ∀ (cids : List String) (s : HandlerState) (cid : String), cid ∈ cids →
      clarCancelled (clarCancelFold s cids reason) cid := by
  intro cids
  induction cids with
  | nil => intro s cid h; cases h
  | cons r t ih =>
    intro s cid h
    rcases List.mem_cons.mp h with he | ht
    · subst he
      exact clarCancelFold_preserves reason t _ cid (cancelClar_self s cid reason)
    · exact ih _ cid ht

theorem clarCancelFold_other (reason : String) :
    ∀ (cids : List String) (s : HandlerState) (cid : String),
      (∀ c' ∈ cids, c' ≠ cid) →
      alook (clarCancelFold s cids reason).pending cid = alook s.pending cid := by
  intro cids
  induction cids with
  | nil => intro s cid _; rfl
  | cons r t ih =>
    intro s cid h
    have hr : r ≠ cid := h r (List.mem_cons_self _ _)
    have ht : ∀ c' ∈ t, c' ≠ cid := fun c' hc' => h c' (List.mem_cons_of_mem _ hc')
    show alook (clarCancelFold (cancelClarification s r reason).1 t reason).pending cid = _
    rw [ih _ cid ht, cancelClar_other s r reason cid (fun he => hr he.symm)]

theorem cancelPS_lookup_self (m : ManagerState) (rid reason : String) (sess : ProcSession)
    (hsess : alook m.processing_sessions rid = some sess) :
    alook (cancelProcessingSession m rid reason).1.processing_sessions rid =
      some { sess with status := "cancelled", error := some reason } ∧
    (cancelProcessingSession m rid reason).2 =
      [.processingStatus sess.client_id rid "cancelled" reason] := by
  unfold cancelProcessingSession
  rw [hsess]
  simp [alook_aset_self]

/-- What `cancel_processing` computes on a known run id. -/
theorem cancelProcessing_eq (st : SystemState) (rid reason : String) (sd : OrchSession)
    (hsd : alook st.sessions rid = some sd) :
    cancelProcessing st rid reason =
      ({ sessions := aset st.sessions rid { sd with error := some reason },
         clar := clarCancelFold st.clar (getPendingClarificationIds st.clar sd.client_id) reason,
         mgr := (cancelProcessingSession st.mgr rid reason).1 },
       (cancelClarsLoop st.clar (getPendingClarificationIds st.clar sd.client_id) reason).2 ++
         (cancelProcessingSession st.mgr rid reason).2) := by
  unfold cancelProcessing
  rw [hsd]
  simp [cancelClarsLoop_fst]

/-- C6 (amended).  `cancel_processing(run_id, reason)` marks the manager's
session for the run `"cancelled"` and notifies the client, and cancels every
pending clarification of the session's *client* — including clarifications
raised by other runs of the same client — while pending clarifications of
other clients are left exactly as they were. -/
theorem cancel_processing_cancels_by_client (st : SystemState) (rid reason : String)
    (sd : OrchSession) (hsd : alook st.sessions rid = some sd)
    (hnd : (st.clar.pending.map Prod.fst).Nodup) :
    (∀ cid ctx, alook st.clar.pending cid = some ctx → ctx.client_id = sd.client_id →
      ctx.status = "pending" →
      ∀ ctx', alook (cancelProcessing st rid reason).1.clar.pending cid = some ctx' →
        ctx'.status = "cancelled") ∧
    (∀ cid ctx, alook st.clar.pending cid = some ctx → ctx.client_id ≠ sd.client_id →
      alook (cancelProcessing st rid reason).1.clar.pending cid = some ctx) ∧
    (∀ sess, alook st.mgr.processing_sessions rid = some sess →
      alook (cancelProcessing st rid reason).1.mgr.processing_sessions rid =
        some { sess with status := "cancelled", error := some reason } ∧
      OutMsg.processingStatus sess.client_id rid "cancelled" reason ∈
        (cancelProcessing st rid reason).2) := by
  rw [cancelProcessing_eq st rid reason sd hsd]
  refine ⟨?_, ?_, ?_⟩
  · intro cid ctx hctx hcl hst ctx' hctx'
    have hmem : cid ∈ getPendingClarificationIds st.clar sd.client_id := by
      unfold getPendingClarificationIds
      exact List.mem_map.mpr
        ⟨(cid, ctx), List.mem_filter.mpr ⟨alook_mem _ _ _ hctx, by simp [hcl, hst]⟩, rfl⟩
    exact clarCancelFold_cancels reason _ st.clar cid hmem ctx' hctx'
  · intro cid ctx hctx hncl
    have hne : ∀ c' ∈ getPendingClarificationIds st.clar sd.client_id, c' ≠ cid := by
      intro c' hc' he
      subst he
      unfold getPendingClarificationIds at hc'
      obtain ⟨⟨k, cctx⟩, hmemf, hfst⟩ := List.mem_map.mp hc'
      obtain ⟨hmemp, hp⟩ := List.mem_filter.mp hmemf
      simp only [decide_eq_true_eq] at hp
      have hfst' : k = c' := hfst
      have : alook st.clar.pending k = some cctx := alook_of_mem_nodup _ hnd _ _ hmemp
      rw [hfst', hctx] at this
      injection this with this
      exact hncl (by rw [this]; exact hp.1)
    rw [clarCancelFold_other reason _ st.clar cid hne]
    exact hctx
  · intro sess hsess
    obtain ⟨h1, h2⟩ := cancelPS_lookup_self st.mgr rid reason sess hsess
    refine ⟨h1, ?_⟩
    rw [h2]
    simp

/-- A pending clarification context. -/
def pCtx (cid client rid : String) : ClarCtx :=
  { clarification_id := cid, client_id := client, run_id := rid, question := "Q",
    timeout_seconds := 300, options := none, status := "pending", response := none }

/-- A system where client `"cA"` drives runs `"r1"` and `"r2"`, each with a
pending clarification (`"k1"` for `"r1"`, `"k2"` for `"r2"`), and client
`"cB"` has its own pending clarification `"k3"`. -/
def c6State : SystemState :=
  { sessions :=
      [("r1", { run_id := "r1", client_id := "cA", error := none }),
       ("r2", { run_id := "r2", client_id := "cA", error := none })],
    clar :=
      { pending := [("k1", pCtx "k1" "cA" "r1"), ("k2", pCtx "k2" "cA" "r2"),
                    ("k3", pCtx "k3" "cB" "r9")],
        futureDict := ["k1", "k2", "k3"],
        futureVal := [("k1", .unresolved), ("k2", .unresolved), ("k3", .unresolved)] },
    mgr :=
      { connections := ["cA", "cB"],
        connection_info :=
          [("cA", { client_id := "cA", processing_sessions := ["r1", "r2"] }),
           ("cB", { client_id := "cB", processing_sessions := [] })],
        processing_sessions :=
          [("r1", { run_id := "r1", client_id := "cA", status := "running", error := none }),
           ("r2", { run_id := "r2", client_id := "cA", status := "running", error := none })] } }

/-- C6 exactly as stated: cancelling a run cancels exactly the
clarifications outstanding for that run — a pending clarification belonging
to a different run survives the call still pending. -/
def c6ClaimAsStated : Prop :=
  ∀ (st : SystemState) (rid reason cid : String) (ctx : ClarCtx),
    alook st.clar.pending cid = some ctx → ctx.run_id ≠ rid → ctx.status = "pending" →
    ∀ ctx', alook (cancelProcessing st rid reason).1.clar.pending cid = some ctx' →
      ctx'.status ≠ "cancelled"

/-- Counterexample to C6 as stated: cancelling run `"r1"` also cancels
clarification `"k2"`, which belongs to run `"r2"` — the coordinator filter
is by client, not by run. -/
theorem cancel_processing_counterexample : ¬ c6ClaimAsStated := by
  intro h
  have hk2 := h c6State "r1" "stop" "k2" (pCtx "k2" "cA" "r2") (by decide) (by decide)
    (by decide) { pCtx "k2" "cA" "r2" with status := "cancelled" } (by decide)
  exact hk2 rfl

/-- The orchestrator session entry of `"r1"` in `c6State`. -/
def c6Sd : OrchSession := { run_id := "r1", client_id := "cA", error := none }

/-- The manager session entry of `"r1"` in `c6State`. -/
def c6Sess : ProcSession := { run_id := "r1", client_id := "cA", status := "running", error := none }

/-- Witness for the amended C6 on `c6State`: cancelling `"r1"` cancels both
of client `"cA"`'s pending clarifications (`"k2"` belongs to run `"r2"`),
leaves client `"cB"`'s clarification untouched, marks the manager session
cancelled and notifies the client. -/
theorem cancel_processing_cancels_by_client_witness :
    (alook (cancelProcessing c6State "r1" "stop").1.clar.pending "k2").map
      (fun c => c.status) = some "cancelled" ∧
    alook (cancelProcessing c6State "r1" "stop").1.clar.pending "k3" =
      some (pCtx "k3" "cB" "r9") ∧
    alook (cancelProcessing c6State "r1" "stop").1.mgr.processing_sessions "r1" =
      some { c6Sess with status := "cancelled", error := some "stop" } ∧
    OutMsg.processingStatus "cA" "r1" "cancelled" "stop" ∈
      (cancelProcessing c6State "r1" "stop").2 := by
  obtain ⟨ha, hb, hc⟩ :=
    cancel_processing_cancels_by_client c6State "r1" "stop" c6Sd (by decide) (by decide)
  obtain ⟨h1, h2⟩ := hc c6Sess (by decide)
  refine ⟨?_, hb "k3" (pCtx "k3" "cB" "r9") (by decide) (by decide), h1, h2⟩
  have hs := ha "k2" (pCtx "k2" "cA" "r2") (by decide) (by decide) (by decide)
  rcases halook : alook (cancelProcessing c6State "r1" "stop").1.clar.pending "k2" with _ | s
  · exact absurd halook (by decide)
  · simp [hs s halook]
